import Mathlib

/-
  Verification development for the Seattle-metro long-term-care-facility
  population script (src/synthpops/long_term_care_facilities.py).

  The Python script is shallowly embedded: pure computations become Lean
  functions over Nat/Int/Rat; the shared numpy random stream becomes
  explicit oracle streams (a function from a draw counter to the drawn
  value); in-place dict/list mutation becomes explicit state passing;
  fallible steps (numpy raising on NaN probabilities or empty pools)
  return Except.  External collaborators from the synthpops package
  (functions called as sp.*) are not part of src/; where a claim depends
  on them they are modelled from the spec, and such definitions carry a
  doc comment starting with: Modelled from the spec.
-/

namespace SynthpopsLTCF

/- ================================================================
   Calibration: expected_users_by_age
   (generate_microstructure_with_faciities, lines 415-446)
   ================================================================ -/

/-- Embedding of the loop body of lines 417-444.  For each single year of
age in the loop the code looks up the age's census bracket in the 18-bracket
scheme, computes gen_pop_size * age_distr_18[b] / len(age_brackets_18[b]),
multiplies by the usage percentage read from est_ltcf_user_by_age_brackets_perc
(keys 60-64 / 70-74 / 80-84 / 85-100; by lines 388-394 the 65-69 and 70-74
entries both hold the 65-74 survey value and the 75-79 and 80-84 entries both
hold the 75-84 survey value, so the four parent percentages are the free
parameters), and takes int(math.ceil(.)). -/
def expected_users_by_age (gen_pop_size : Nat) (age_distr_18 : Nat → ℚ)
    (bracket_len_18 : Nat → Nat) (bracket_of_18 : Nat → Nat)
    (p60_64 p65_74 p75_84 p85_100 : ℚ) (a : Nat) : Int :=
  if a < 65 then
    let b := bracket_of_18 a
    Int.ceil ((gen_pop_size : ℚ) * age_distr_18 b / (bracket_len_18 b : ℚ) * p60_64)
  else if a < 75 then
    let b := bracket_of_18 a
    Int.ceil ((gen_pop_size : ℚ) * age_distr_18 b / (bracket_len_18 b : ℚ) * p65_74)
  else if a < 85 then
    let b := bracket_of_18 a
    Int.ceil ((gen_pop_size : ℚ) * age_distr_18 b / (bracket_len_18 b : ℚ) * p75_84)
  else if a < 101 then
    let b := bracket_of_18 a
    Int.ceil ((gen_pop_size : ℚ) * age_distr_18 b / (bracket_len_18 b : ℚ) * p85_100)
  else 0

/-- The dict expected_users_by_age built by the loop over range(60, 101):
an association table whose keys are exactly the ages the loop visits. -/
def expected_users_by_age_table (gen_pop_size : Nat) (age_distr_18 : Nat → ℚ)
    (bracket_len_18 : Nat → Nat) (bracket_of_18 : Nat → Nat)
    (p60_64 p65_74 p75_84 p85_100 : ℚ) : List (Nat × Int) :=
  (List.range' 60 41).map (fun a =>
    (a, expected_users_by_age gen_pop_size age_distr_18 bracket_len_18 bracket_of_18
          p60_64 p65_74 p75_84 p85_100 a))

/-- Modelled from the spec: the fine-bracket usage percentage after the
remap of section 4.3 step 6 (child brackets 60-64, 65-69, 70-74, 75-79,
80-84, 85-100 reuse the parent survey bracket's percentage). -/
def fine_bracket_perc (p60_64 p65_74 p75_84 p85_100 : ℚ) (a : Nat) : ℚ :=
  if a < 65 then p60_64
  else if a < 75 then p65_74
  else if a < 85 then p75_84
  else p85_100

/-- Modelled from the spec: usage_count(age) = ceil(population_size x
local_age_distribution(bracket) / bracket_width x usage_percentage(bracket)),
the formula of section 4.3 step 7, stated in the spec's own terms for
comparison with the embedded code. -/
def usage_count_spec (gen_pop_size : Nat) (age_distr_18 : Nat → ℚ)
    (bracket_len_18 : Nat → Nat) (bracket_of_18 : Nat → Nat)
    (p60_64 p65_74 p75_84 p85_100 : ℚ) (a : Nat) : Int :=
  Int.ceil ((gen_pop_size : ℚ) * age_distr_18 (bracket_of_18 a) /
      (bracket_len_18 (bracket_of_18 a) : ℚ) *
      fine_bracket_perc p60_64 p65_74 p75_84 p85_100 a)

/- ================================================================
   Hand-off to household generation
   (generate_microstructure_with_faciities, lines 493-517)
   ================================================================ -/

/-- Python's int() conversion: truncation toward zero. -/
def pyInt (x : ℚ) : Int :=
  if 0 ≤ x then Int.floor x else Int.ceil x

/-- Line 498: expected_age_distr[a] =
age_distr_16[age_by_brackets_dic_16[a]] / len(age_brackets_16[...]). -/
def expected_age_distr (age_distr_16 : Nat → ℚ) (bracket_of_16 : Nat → Nat)
    (bracket_len_16 : Nat → Nat) (a : Nat) : ℚ :=
  age_distr_16 (bracket_of_16 a) / (bracket_len_16 (bracket_of_16 a) : ℚ)

/-- Line 499: expected_age_count[a] = int(gen_pop_size * expected_age_distr[a]). -/
def expected_age_count (gen_pop_size : Nat) (age_distr_16 : Nat → ℚ)
    (bracket_of_16 : Nat → Nat) (bracket_len_16 : Nat → Nat) (a : Nat) : Int :=
  pyInt ((gen_pop_size : ℚ) * expected_age_distr age_distr_16 bracket_of_16 bracket_len_16 a)

/-- Lines 501-503: ltcf_adjusted_age_count starts as a copy of
expected_age_count and has the facility user count subtracted for every key
of expected_users_by_age (ages 60 to 100); users is the already computed
expected_users_by_age table handed over by the calibration stage. -/
def ltcf_adjusted_age_count (gen_pop_size : Nat) (age_distr_16 : Nat → ℚ)
    (bracket_of_16 : Nat → Nat) (bracket_len_16 : Nat → Nat)
    (users : Nat → Int) (a : Nat) : Int :=
  expected_age_count gen_pop_size age_distr_16 bracket_of_16 bracket_len_16 a -
    (if 60 ≤ a ∧ a ≤ 100 then users a else 0)

/-- Modelled from the spec: sp.norm_dic is not under src/; per the spec an
age table is "renormalized" into a distribution, i.e. divided by its total
over the ages 0..100. -/
def norm_dic (d : Nat → ℚ) : Nat → ℚ :=
  fun a => d a / (∑ x in Finset.range 101, d x)

/-- Line 504: ltcf_adjusted_age_distr = sp.norm_dic(ltcf_adjusted_age_count). -/
def ltcf_adjusted_age_distr (gen_pop_size : Nat) (age_distr_16 : Nat → ℚ)
    (bracket_of_16 : Nat → Nat) (bracket_len_16 : Nat → Nat)
    (users : Nat → Int) : Nat → ℚ :=
  norm_dic (fun a =>
    ((ltcf_adjusted_age_count gen_pop_size age_distr_16 bracket_of_16 bracket_len_16 users a : Int) : ℚ))

/-- Line 517: the single-year age distribution argument actually handed to
generate_all_households is deepcopy(expected_age_distr) - the unadjusted
table of line 498, not ltcf_adjusted_age_distr. -/
def household_age_distr_arg (age_distr_16 : Nat → ℚ) (bracket_of_16 : Nat → Nat)
    (bracket_len_16 : Nat → Nat) : Nat → ℚ :=
  fun a => expected_age_distr age_distr_16 bracket_of_16 bracket_len_16 a

/- ================================================================
   Facility formation from the shuffled resident pool
   (generate_microstructure_with_faciities, lines 484-489)
   ================================================================ -/

/-- Embedding of the while loop of lines 484-488 with an explicit fuel
argument (the loop consumes at least one resident per iteration for the
positive empirical sizes, so fuel = pool length suffices; theorems are
stated for that fuel through place_residents).  size_draws is the stream of
draws int(np.random.choice(KC_ltcf_sizes)), indexed by iteration. -/
def place_residents_aux (size_draws : Nat → Nat) :
    Nat → List Nat → Nat → List (List Nat)
  | 0, _, _ => []
  | _ + 1, [], _ => []
  | fuel + 1, x :: xs, k =>
    (x :: xs).take (size_draws k) ::
      place_residents_aux size_draws fuel ((x :: xs).drop (size_draws k)) (k + 1)

/-- The facilities list produced from the shuffled all_residents pool. -/
def place_residents (size_draws : Nat → Nat) (pool : List Nat) : List (List Nat) :=
  place_residents_aux size_draws pool.length pool 0

/- ================================================================
   Age resampler (resample_age_uk, lines 36-68)
   ================================================================ -/

/-- The shared numpy pseudo-random stream, threaded explicitly through a
state type R.  resample_step models sp.resample_age (external collaborator:
distribution and previous age in, one age out) and binom models
np.random.binomial(1, p); both consume randomness. -/
structure Rng (R : Type) where
  resample_step : R → (Nat → ℚ) → Nat → Nat × R
  binom : R → ℚ → Bool × R

/-- One of the seven conditional blocks of resample_age_uk: if the current
age equals target, draw binomial(1, p) and on success reapply
sp.resample_age; the binomial draw consumes randomness only when the age
matches, exactly as in the source. -/
def reapply_step {R : Type} (rng : Rng R) (d : Nat → ℚ) (target : Nat) (p : ℚ)
    (st : Nat × R) : Nat × R :=
  if st.1 = target then
    let br := rng.binom st.2 p
    if br.1 then rng.resample_step br.2 d st.1 else (st.1, br.2)
  else st

/-- Embedding of resample_age_uk (lines 36-68): one unconditional
sp.resample_age call, then the conditional reapplication blocks in source
order with probabilities 0.25 at 7, 0.25 at 6, 0.2 at 5 and 0.0 at each of
0, 1, 2, 4. -/
def resample_age_uk {R : Type} (rng : Rng R) (d : Nat → ℚ) (a : Nat) (r : R) :
    Nat × R :=
  let s1 := rng.resample_step r d a
  let s2 := reapply_step rng d 7 (1/4) s1
  let s3 := reapply_step rng d 6 (1/4) s2
  let s4 := reapply_step rng d 5 (1/5) s3
  let s5 := reapply_step rng d 0 0 s4
  let s6 := reapply_step rng d 1 0 s5
  let s7 := reapply_step rng d 2 0 s6
  reapply_step rng d 4 0 s7

/-- Modelled from the spec: the section 4.1 contract in the spec's own
words, for comparison with the embedded code - reapply the base procedure,
with probabilistic reapplication only at ages 5, 6, 7 (probability 0.2,
0.25, 0.25) and nothing at all at ages 0, 1, 2, 4. -/
def resample_age_uk_spec {R : Type} (rng : Rng R) (d : Nat → ℚ) (a : Nat) (r : R) :
    Nat × R :=
  let s1 := rng.resample_step r d a
  let s2 := reapply_step rng d 7 (1/4) s1
  let s3 := reapply_step rng d 6 (1/4) s2
  reapply_step rng d 5 (1/5) s3

/-- A trivially deterministic random state used to exercise the resampler
theorems on concrete inputs: resampling always lands on age 42 and the
binomial coin fires exactly for positive probabilities. -/
def witness_rng : Rng Nat :=
  { resample_step := fun r _ _ => (42, r + 1)
    binom := fun r p => (decide (0 < p), r + 1) }

/- ================================================================
   Household generation (generate_all_households, lines 133-170, and
   generate_larger_households, lines 72-130)
   ================================================================ -/

/-- Line 159: single_year_age_distr[a] -= 1.0/N, i.e. remove one
individual's worth of mass at age a from the working distribution. -/
def deplete (nq : ℚ) (d : Nat → ℚ) (a : Nat) : Nat → ℚ :=
  Function.update d a (d a - 1 / nq)

/-- Lines 158-159: after sp.generate_living_alone returns the size-1 homes,
each drawn head's mass is removed from the working distribution. -/
def deplete_singles (nq : ℚ) (d : Nat → ℚ) (heads1 : List Nat) : Nat → ℚ :=
  heads1.foldl (deplete nq) d

/-- Modelled from the spec: draw k single ages in sequence from the working
distribution, removing each drawn individual's 1/N of mass (sections 4.2
and 5: the age distribution is depleted in place as individuals are
allocated).  The within-slot age selection of lines 98-126 (head-age draw,
contact-matrix bracket draw, sp.sample_from_range, the 0.15 young-adult
coin and resample_age_uk) happens inside external sp samplers and is
abstracted into the draw stream; only the stream index and the depletion
bookkeeping - all this claim is about - are kept. -/
def draw_ages (nq : ℚ) (draw : Nat → Nat) :
    Nat → Nat → (Nat → ℚ) → List Nat × Nat × (Nat → ℚ)
  | 0, ctr, d => ([], ctr, d)
  | k + 1, ctr, d =>
    let a := draw ctr
    let rec1 := draw_ages nq draw k (ctr + 1) (deplete nq d a)
    (a :: rec1.1, rec1.2.1, rec1.2.2)

/-- Embedding of generate_larger_households for one size: the loop over
h in range(hh_sizes[size-1]) generates count homes of the given size, each
home drawing its member ages in order from the working distribution. -/
def generate_larger_households (nq : ℚ) (draw : Nat → Nat) (size : Nat) :
    Nat → Nat → (Nat → ℚ) → List (List Nat) × Nat × (Nat → ℚ)
  | 0, ctr, d => ([], ctr, d)
  | count + 1, ctr, d =>
    let home := draw_ages nq draw size ctr d
    let rest := generate_larger_households nq draw size count home.2.1 home.2.2
    (home.1 :: rest.1, rest.2.1, rest.2.2)

/-- One iteration of the for s in range(2, 8) loop of line 162: generate
the hh_sizes[s-1] households of size s, extending the accumulated home list
and threading the draw counter and working distribution. -/
def gen_sizes_step (nq : ℚ) (draw : Nat → Nat) (hh_sizes : Nat → Nat)
    (acc : List (List Nat) × Nat × (Nat → ℚ)) (s : Nat) :
    List (List Nat) × Nat × (Nat → ℚ) :=
  let gen := generate_larger_households nq draw s (hh_sizes (s - 1)) acc.2.1 acc.2.2
  (acc.1 ++ gen.1, gen.2.1, gen.2.2)

/-- Embedding of generate_all_households (lines 155-168, before the final
shuffle): size-1 homes come from the heads1 list returned by the external
sp.generate_living_alone (modelled from the spec as producing hh_sizes[0]
heads), their mass is removed, and the sizes 2..7 are generated in order
with the distribution threaded through.  Returns the flat ordered home
list and the final working distribution. -/
def generate_all_households (nq : ℚ) (hh_sizes : Nat → Nat) (heads1 : List Nat)
    (draw : Nat → Nat) (d0 : Nat → ℚ) : List (List Nat) × (Nat → ℚ) :=
  let homes1 := heads1.map (fun h => [h])
  let d1 := deplete_singles nq d0 heads1
  let res := [2, 3, 4, 5, 6, 7].foldl (gen_sizes_step nq draw hh_sizes) (homes1, 0, d1)
  (res.1, res.2.2)

/- ================================================================
   Facility staff assignment
   (generate_microstructure_with_faciities, lines 572-597)
   ================================================================ -/

/-- The np.arange(20, 60) age range staff are drawn from. -/
def staff_age_range : List Nat := List.range' 20 40

/-- The worker pool state mutated by the staff loop: the by-uid dict
potential_worker_uids, the by-age lists potential_worker_uids_by_age, and
the per-age counts workers_by_age_to_assign_count. -/
structure WorkerPool where
  byUid : Finset Nat
  byAge : Nat → List Nat
  toAssign : Nat → Nat

/-- Line 579: n_staff = int(math.ceil(n_residents / resident_staff_ratio)),
with q the drawn empirical resident:staff value (range(n_staff) runs zero
times when the ceiling is not positive, hence toNat). -/
def n_staff_of (n_residents : Nat) (q : ℚ) : Nat :=
  (Int.ceil ((n_residents : ℚ) / q)).toNat

/-- The age drawn by np.random.choice(a=staff_age_range, p=a_prob) at
line 586: the probability vector is proportional to the remaining per-age
counts, so ages of zero remaining count are never returned and any age of
positive count can be; the draw is modelled by an oracle index into the
positive-count ages. -/
def chosen_age (idx : Nat) (pool : WorkerPool) : Nat :=
  (staff_age_range.filter (fun a => 0 < pool.toAssign a)).getD
    (idx % (staff_age_range.filter (fun a => 0 < pool.toAssign a)).length) 0

/-- The worker pool after one staff slot (lines 588-591): the uid is
removed from the by-age list (it is the list head, so remove-by-value drops
it) and popped from the by-uid dict, and the age's remaining count is
decremented. -/
def slot_next_pool (idx : Nat) (pool : WorkerPool) (uid : Nat) (rest : List Nat) :
    WorkerPool :=
  { byUid := pool.byUid.erase uid
    byAge := Function.update pool.byAge (chosen_age idx pool) rest
    toAssign := Function.update pool.toAssign (chosen_age idx pool)
      (pool.toAssign (chosen_age idx pool) - 1) }

/-- One staff slot (lines 584-591).  np.random.choice raises when the
remaining counts sum to zero (the normalized probability vector is NaN),
and taking element 0 of the chosen age's uid list raises when that list is
empty; both are fatal, uncaught errors in the source. -/
def draw_staff_slot (idx : Nat) (pool : WorkerPool) :
    Except String (Nat × Nat × WorkerPool) :=
  if (staff_age_range.map pool.toAssign).sum = 0 then
    Except.error "staff age weights sum to zero"
  else
    match pool.byAge (chosen_age idx pool) with
    | [] => Except.error "no eligible worker at the sampled age"
    | uid :: rest => Except.ok (chosen_age idx pool, uid, slot_next_pool idx pool uid rest)

/-- The loop for i in range(n_staff) of lines 583-594: draw the slots of
one facility in order, accumulating the staff ages and uids. -/
def assign_staff (picks : Nat → Nat) :
    Nat → Nat → WorkerPool → Except String (List Nat × List Nat × Nat × WorkerPool)
  | 0, ctr, pool => Except.ok ([], [], ctr, pool)
  | n + 1, ctr, pool =>
    match draw_staff_slot (picks ctr) pool with
    | Except.error e => Except.error e
    | Except.ok (a, uid, pool2) =>
      match assign_staff picks n (ctr + 1) pool2 with
      | Except.error e => Except.error e
      | Except.ok (ags, us, ctr2, pool3) =>
        Except.ok (a :: ags, uid :: us, ctr2, pool3)

/-- The loop for nf, fc in enumerate(facilities) of lines 575-597:
ratio_sample is the stream of np.random.choice(KC_resident_staff_ratios)
draws, indexed by facility. -/
def assign_facilities_staff (picks : Nat → Nat) (ratio_sample : Nat → ℚ) :
    List (List Nat) → Nat → Nat → WorkerPool →
    Except String (List (List Nat) × List (List Nat) × WorkerPool)
  | [], _, _, pool => Except.ok ([], [], pool)
  | fc :: rest, nf, ctr, pool =>
    let ns := n_staff_of fc.length (ratio_sample nf)
    match assign_staff picks ns ctr pool with
    | Except.error e => Except.error e
    | Except.ok (ags, us, ctr2, pool2) =>
      match assign_facilities_staff picks ratio_sample rest (nf + 1) ctr2 pool2 with
      | Except.error e => Except.error e
      | Except.ok (agLists, uidLists, pool3) =>
        Except.ok (ags :: agLists, us :: uidLists, pool3)

/-- Projection of a successful staff assignment to the observable age and
uid lists (the facilities_staff and facilities_staff_uids variables). -/
def ok_staff_lists (e : Except String (List (List Nat) × List (List Nat) × WorkerPool)) :
    Option (List (List Nat) × List (List Nat)) :=
  match e with
  | Except.ok r => some (r.1, r.2.1)
  | Except.error _ => none

/-- Whether the staff assignment stage completes without raising. -/
def staff_assignment_succeeds
    (e : Except String (List (List Nat) × List (List Nat) × WorkerPool)) : Prop :=
  ∃ r, e = Except.ok r

/-- Total remaining workers-to-assign over the eligible age range. -/
def supply (pool : WorkerPool) : Nat :=
  (staff_age_range.map pool.toAssign).sum

/-- Total staff demanded by a facility list under the drawn ratios. -/
def staff_demand (ratio_sample : Nat → ℚ) : List (List Nat) → Nat → Nat
  | [], _ => 0
  | fc :: rest, nf => n_staff_of fc.length (ratio_sample nf) + staff_demand ratio_sample rest (nf + 1)

/-- The bookkeeping invariant the pipeline maintains on the worker pool:
per-age uid lists are duplicate free and pairwise disjoint over the
eligible range, every pooled uid is in the by-uid dict, and the remaining
count at an age never exceeds the uids actually pooled there. -/
def PoolInv (pool : WorkerPool) : Prop :=
  (∀ a ∈ staff_age_range, (pool.byAge a).Nodup) ∧
  (∀ a ∈ staff_age_range, ∀ b ∈ staff_age_range, a ≠ b →
    ∀ u ∈ pool.byAge a, u ∉ pool.byAge b) ∧
  (∀ a ∈ staff_age_range, pool.toAssign a ≤ (pool.byAge a).length) ∧
  (∀ a ∈ staff_age_range, ∀ u ∈ pool.byAge a, u ∈ pool.byUid)

/-- A small concrete worker pool used to exercise the staff-assignment
theorems: two eligible workers, both aged 20. -/
def witness_pool : WorkerPool where
  byUid := {100, 101}
  byAge := fun a => if a = 20 then [100, 101] else []
  toAssign := fun a => if a = 20 then 2 else 0

/- ================================================================
   Contact graph assembly
   (make_contacts_with_facilities_from_microstructure_objects, lines 240-285)
   ================================================================ -/

/-- The five contact layer keys. -/
inductive Layer
  | H
  | S
  | W
  | C
  | LTCF
  deriving DecidableEq

/-- One per-uid record of the popdict. -/
structure Person where
  age : Nat
  sex : Nat
  snf_res : Option Nat
  snf_staff : Option Nat
  contacts : Layer → Finset Nat

/-- Assignment popdict[uid]['contacts'][l] = s. -/
def set_contacts (pd : Nat → Person) (uid : Nat) (l : Layer) (s : Finset Nat) :
    Nat → Person :=
  fun v => if v = uid then
    { pd uid with contacts := fun l2 => if l2 = l then s else (pd uid).contacts l2 }
  else pd v

/-- Assignment popdict[uid]['snf_res'] = 1. -/
def set_snf_res (pd : Nat → Person) (uid : Nat) : Nat → Person :=
  fun v => if v = uid then { pd uid with snf_res := some 1 } else pd v

/-- Assignment popdict[uid]['snf_staff'] = 1. -/
def set_snf_staff (pd : Nat → Person) (uid : Nat) : Nat → Person :=
  fun v => if v = uid then { pd uid with snf_staff := some 1 } else pd v

/-- One iteration of the facilities loop (lines 256-268): every resident's
LTCF set becomes residents union staff minus self and the resident flag is
set; every staff member's W set becomes residents union staff minus self
and the staff flag is set. -/
def add_facility (pd : Nat → Person) (facility fstaff : List Nat) : Nat → Person :=
  let fs := facility.toFinset ∪ fstaff.toFinset
  let pd1 := facility.foldl
    (fun pd uid => set_snf_res (set_contacts pd uid Layer.LTCF (fs.erase uid)) uid) pd
  fstaff.foldl
    (fun pd uid => set_snf_staff (set_contacts pd uid Layer.W (fs.erase uid)) uid) pd1

/-- One of the household / school / workplace loops (lines 270-283): every
group member's set for the layer becomes the group minus self. -/
def add_group (l : Layer) (pd : Nat → Person) (group : List Nat) : Nat → Person :=
  group.foldl (fun pd uid => set_contacts pd uid l (group.toFinset.erase uid)) pd

/-- Embedding of make_contacts_with_facilities_from_microstructure_objects:
initialise every record with empty contact sets and unset flags (sex is an
oracle for np.random.randint(2)), drop the first len(facilities_by_uids)
home groups (line 254), then run the facility, household, school and
workplace loops in source order. -/
def make_contacts_with_facilities (age_by_uid sex_by_uid : Nat → Nat)
    (homes_by_uids schools_by_uids workplaces_by_uids
      facilities_by_uids facilities_staff_uids : List (List Nat)) : Nat → Person :=
  let pd0 : Nat → Person :=
    fun uid => ⟨age_by_uid uid, sex_by_uid uid, none, none, fun _ => ∅⟩
  let regular_homes := homes_by_uids.drop facilities_by_uids.length
  let pd1 := (facilities_by_uids.zip facilities_staff_uids).foldl
    (fun pd p => add_facility pd p.1 p.2) pd0
  let pd2 := regular_homes.foldl (add_group Layer.H) pd1
  let pd3 := schools_by_uids.foldl (add_group Layer.S) pd2
  workplaces_by_uids.foldl (add_group Layer.W) pd3

/- ================================================================
   Lemmas and claim theorems
   ================================================================ -/

theorem place_residents_aux_nil (size_draws : Nat → Nat) (fuel k : Nat) :
    place_residents_aux size_draws fuel [] k = [] := by
  cases fuel <;> rfl

theorem place_residents_aux_flatten (size_draws : Nat → Nat)
    (hs : ∀ k, 0 < size_draws k) :
    ∀ fuel pool k, pool.length ≤ fuel →
      (place_residents_aux size_draws fuel pool k).flatten = pool := by
  intro fuel
  induction fuel with
  | zero =>
    intro pool k hlen
    have hp : pool = [] := List.eq_nil_of_length_eq_zero (Nat.le_zero.mp hlen)
    subst hp
    rfl
  | succ fuel ih =>
    intro pool k hlen
    cases pool with
    | nil => rfl
    | cons x xs =>
      have hrec : ((x :: xs).drop (size_draws k)).length ≤ fuel := by
        rw [List.length_drop]
        have h1 := hs k
        have h2 : (x :: xs).length = xs.length + 1 := rfl
        omega
      have hunfold : place_residents_aux size_draws (fuel + 1) (x :: xs) k =
          (x :: xs).take (size_draws k) ::
            place_residents_aux size_draws fuel ((x :: xs).drop (size_draws k)) (k + 1) := rfl
      calc (place_residents_aux size_draws (fuel + 1) (x :: xs) k).flatten
          = (x :: xs).take (size_draws k) ++
              (place_residents_aux size_draws fuel ((x :: xs).drop (size_draws k)) (k + 1)).flatten := by
            rw [hunfold, List.flatten_cons]
        _ = (x :: xs).take (size_draws k) ++ (x :: xs).drop (size_draws k) := by
            rw [ih _ _ hrec]
        _ = x :: xs := List.take_append_drop _ _

theorem place_residents_aux_sizes (size_draws : Nat → Nat)
    (hs : ∀ k, 0 < size_draws k) :
    ∀ fuel pool k, pool.length ≤ fuel →
      ∀ j, j < (place_residents_aux size_draws fuel pool k).length →
        ((place_residents_aux size_draws fuel pool k).getD j []).length ≤ size_draws (k + j) ∧
        (j + 1 < (place_residents_aux size_draws fuel pool k).length →
          ((place_residents_aux size_draws fuel pool k).getD j []).length = size_draws (k + j)) := by
  intro fuel
  induction fuel with
  | zero =>
    intro pool k hlen j hj
    exact absurd hj (by simp [place_residents_aux])
  | succ fuel ih =>
    intro pool k hlen
    cases pool with
    | nil =>
      intro j hj
      exact absurd hj (by simp [place_residents_aux])
    | cons x xs =>
      have hrec : ((x :: xs).drop (size_draws k)).length ≤ fuel := by
        rw [List.length_drop]
        have h1 := hs k
        have h2 : (x :: xs).length = xs.length + 1 := rfl
        omega
      intro j hj
      have hunfold : place_residents_aux size_draws (fuel + 1) (x :: xs) k =
          (x :: xs).take (size_draws k) ::
            place_residents_aux size_draws fuel ((x :: xs).drop (size_draws k)) (k + 1) := rfl
      rw [hunfold] at hj ⊢
      match j with
      | 0 =>
        constructor
        · simp only [Nat.add_zero, List.getD_cons_zero, List.length_take]
          exact min_le_left _ _
        · intro hlt
          have hrest : place_residents_aux size_draws fuel ((x :: xs).drop (size_draws k)) (k + 1) ≠ [] := by
            intro hnil
            rw [List.length_cons, hnil] at hlt
            simp at hlt
          have hdropne : (x :: xs).drop (size_draws k) ≠ [] := by
            intro hnil
            rw [hnil, place_residents_aux_nil] at hrest
            exact hrest rfl
          have hlendrop : 0 < (x :: xs).length - size_draws k := by
            have := List.length_pos.mpr hdropne
            rwa [List.length_drop] at this
          have hsz : size_draws k < (x :: xs).length := by omega
          simp only [Nat.add_zero, List.getD_cons_zero, List.length_take, List.length_cons]
          have hxx : (x :: xs).length = xs.length + 1 := rfl
          rw [hxx] at hsz
          exact Nat.min_eq_left (by omega)
      | j + 1 =>
        have hj2 : j < (place_residents_aux size_draws fuel ((x :: xs).drop (size_draws k)) (k + 1)).length := by
          simpa using hj
        have hres := ih _ (k + 1) hrec j hj2
        have hk : k + 1 + j = k + (j + 1) := by omega
        rw [hk] at hres
        constructor
        · simpa using hres.1
        · intro hlt
          have hlt2 : j + 1 < (place_residents_aux size_draws fuel ((x :: xs).drop (size_draws k)) (k + 1)).length := by
            simpa using hlt
          simpa using hres.2 hlt2

/-- C3: facility formation repeatedly takes a drawn size off the front of
the shuffled resident pool until it is empty: the facilities concatenate
back to exactly the pool (so the total resident count over all facilities
equals - in particular never exceeds - the pooled count, and no pool
remainder survives outside the facilities), every facility but possibly the
last has exactly its drawn size, and every facility, the truncated last one
included, has at most its drawn size. -/
theorem facility_formation_correct (size_draws : Nat → Nat) (pool : List Nat)
    (hs : ∀ k, 0 < size_draws k) :
    (place_residents size_draws pool).flatten = pool ∧
    ((place_residents size_draws pool).map List.length).sum = pool.length ∧
    ∀ j, j < (place_residents size_draws pool).length →
      ((place_residents size_draws pool).getD j []).length ≤ size_draws j ∧
      (j + 1 < (place_residents size_draws pool).length →
        ((place_residents size_draws pool).getD j []).length = size_draws j) := by
  have hflat : (place_residents size_draws pool).flatten = pool :=
    place_residents_aux_flatten size_draws hs pool.length pool 0 le_rfl
  refine ⟨hflat, ?_, ?_⟩
  · rw [← List.length_flatten, hflat]
  · intro j hj
    have hres := place_residents_aux_sizes size_draws hs pool.length pool 0 le_rfl j hj
    simp only [Nat.zero_add] at hres
    exact hres

/-- Witness: the facility-formation theorem applied to the concrete size
stream that always draws 2 and a pool of three residents. -/
theorem facility_formation_correct_witness :
    (∀ k : Nat, 0 < (fun _ : Nat => 2) k) ∧
    ((place_residents (fun _ : Nat => 2) [60, 70, 80]).flatten = [60, 70, 80] ∧
      ((place_residents (fun _ : Nat => 2) [60, 70, 80]).map List.length).sum = [60, 70, 80].length ∧
      ∀ j, j < (place_residents (fun _ : Nat => 2) [60, 70, 80]).length →
        ((place_residents (fun _ : Nat => 2) [60, 70, 80]).getD j []).length ≤ (fun _ : Nat => 2) j ∧
        (j + 1 < (place_residents (fun _ : Nat => 2) [60, 70, 80]).length →
          ((place_residents (fun _ : Nat => 2) [60, 70, 80]).getD j []).length = (fun _ : Nat => 2) j)) :=
  ⟨fun _ => Nat.succ_pos 1,
    facility_formation_correct (fun _ => 2) [60, 70, 80] (fun _ => Nat.succ_pos 1)⟩

theorem reapply_step_age_mem {R : Type} (rng : Rng R) (d : Nat → ℚ) (t : Nat) (p : ℚ)
    (st : Nat × R) (hres : ∀ r2 x, d ((rng.resample_step r2 d x).1) ≠ 0)
    (hst : d st.1 ≠ 0) : d ((reapply_step rng d t p st).1) ≠ 0 := by
  simp only [reapply_step]
  split
  · split
    · exact hres _ _
    · exact hst
  · exact hst

theorem reapply_step_zero_p {R : Type} (rng : Rng R) (d : Nat → ℚ) (t : Nat)
    (st : Nat × R) (hbin0 : ∀ r2, (rng.binom r2 (0 : ℚ)).1 = false) :
    (reapply_step rng d t 0 st).1 = st.1 := by
  simp only [reapply_step]
  split
  · simp [hbin0]
  · rfl

/-- C7: the age resampler applies the base sp.resample_age procedure and
then reapplies it with coin probabilities 0.25 at age 7, 0.25 at age 6 and
0.2 at age 5, while the probability-0 blocks for ages 0, 1, 2, 4 never
change the age (the returned age equals that of the spec-side chain with
only the 5/6/7 reapplications); whenever the base procedure returns ages of
positive mass, the result has positive mass in the distribution, so it is
a valid age in the distribution's support, and the embedding is pure. -/
theorem resample_age_uk_correct {R : Type} (rng : Rng R) (d : Nat → ℚ) (a : Nat) (r : R)
    (hres : ∀ r2 x, d ((rng.resample_step r2 d x).1) ≠ 0)
    (hbin0 : ∀ r2, (rng.binom r2 (0 : ℚ)).1 = false) :
    d ((resample_age_uk rng d a r).1) ≠ 0 ∧
    (resample_age_uk rng d a r).1 = (resample_age_uk_spec rng d a r).1 := by
  have hchain : (resample_age_uk rng d a r).1 = (resample_age_uk_spec rng d a r).1 := by
    simp only [resample_age_uk, resample_age_uk_spec]
    rw [reapply_step_zero_p rng d 4 _ hbin0, reapply_step_zero_p rng d 2 _ hbin0,
      reapply_step_zero_p rng d 1 _ hbin0, reapply_step_zero_p rng d 0 _ hbin0]
  refine ⟨?_, hchain⟩
  rw [hchain]
  simp only [resample_age_uk_spec]
  apply reapply_step_age_mem _ _ _ _ _ hres
  apply reapply_step_age_mem _ _ _ _ _ hres
  apply reapply_step_age_mem _ _ _ _ _ hres
  exact hres _ _

theorem witness_rng_binom_zero (r2 : Nat) : (witness_rng.binom r2 (0 : ℚ)).1 = false := by
  norm_num [witness_rng]

/-- Witness: the resampler theorem applied to the constant distribution and
the deterministic witness rng, at candidate age 30. -/
theorem resample_age_uk_correct_witness :
    (∀ r2 x : Nat, (fun _ : Nat => (1 : ℚ)) ((witness_rng.resample_step r2 (fun _ => (1 : ℚ)) x).1) ≠ 0) ∧
    (∀ r2 : Nat, (witness_rng.binom r2 (0 : ℚ)).1 = false) ∧
    ((fun _ : Nat => (1 : ℚ)) ((resample_age_uk witness_rng (fun _ => (1 : ℚ)) 30 0).1) ≠ 0 ∧
      (resample_age_uk witness_rng (fun _ => (1 : ℚ)) 30 0).1 =
        (resample_age_uk_spec witness_rng (fun _ => (1 : ℚ)) 30 0).1) :=
  ⟨fun _ _ => one_ne_zero, witness_rng_binom_zero,
    resample_age_uk_correct witness_rng (fun _ => (1 : ℚ)) 30 0
      (fun _ _ => one_ne_zero) witness_rng_binom_zero⟩

/-- C1 (code bug evidence): at concrete calibration inputs the single-year
age distribution handed to generate_all_households (line 517 passes
deepcopy(expected_age_distr)) is the unadjusted expected_age_distr and
differs from ltcf_adjusted_age_distr, the distribution lines 501-504 build
by subtracting the facility-assigned counts and renormalizing: the adjusted
distribution is computed but never used.  Inputs: one bracket of width 101
with full mass, generated population 1010, and 5 facility users at age 70;
the passed distribution keeps mass 1/101 at age 70 while the adjusted
distribution has 5/1005 = 1/201 there. -/
theorem household_distr_arg_is_unadjusted :
    household_age_distr_arg (fun _ => 1) (fun _ => 0) (fun _ => 101) =
      expected_age_distr (fun _ => 1) (fun _ => 0) (fun _ => 101) ∧
    household_age_distr_arg (fun _ => 1) (fun _ => 0) (fun _ => 101) 70 ≠
      ltcf_adjusted_age_distr 1010 (fun _ => 1) (fun _ => 0) (fun _ => 101)
        (fun a => if a = 70 then 5 else 0) 70 := by
  constructor
  · rfl
  · have hcount : ∀ x : Nat,
        ((ltcf_adjusted_age_count 1010 (fun _ => 1) (fun _ => 0) (fun _ => 101)
            (fun a => if a = 70 then 5 else 0) x : Int) : ℚ) =
          10 + (if x = 70 then (-5 : ℚ) else 0) := by
      intro x
      simp only [ltcf_adjusted_age_count, expected_age_count, expected_age_distr, pyInt]
      have h10 : (((1010 : Nat) : ℚ) * ((1 : ℚ) / ((101 : Nat) : ℚ))) = 10 := by norm_num
      rw [h10]
      by_cases hx : x = 70
      · subst hx
        norm_num
      · have hinner : (if x = 70 then (5 : Int) else 0) = 0 := if_neg hx
        rw [hinner]
        simp [hx]
    have hsum : ∑ x in Finset.range 101,
        ((ltcf_adjusted_age_count 1010 (fun _ => 1) (fun _ => 0) (fun _ => 101)
            (fun a => if a = 70 then 5 else 0) x : Int) : ℚ) = 1005 := by
      rw [Finset.sum_congr rfl (fun x _ => hcount x), Finset.sum_add_distrib,
        Finset.sum_const, Finset.sum_ite_eq' (Finset.range 101) 70 (fun _ => (-5 : ℚ))]
      norm_num
    have hval : ltcf_adjusted_age_distr 1010 (fun _ => 1) (fun _ => 0) (fun _ => 101)
        (fun a => if a = 70 then 5 else 0) 70 = 5 / 1005 := by
      simp only [ltcf_adjusted_age_distr, norm_dic]
      rw [hsum, hcount 70]
      norm_num
    rw [hval]
    simp only [household_age_distr_arg, expected_age_distr]
    norm_num

theorem fine_bracket_perc_nonneg (p60_64 p65_74 p75_84 p85_100 : ℚ)
    (h60 : 0 ≤ p60_64) (h65 : 0 ≤ p65_74) (h75 : 0 ≤ p75_84) (h85 : 0 ≤ p85_100)
    (a : Nat) : 0 ≤ fine_bracket_perc p60_64 p65_74 p75_84 p85_100 a := by
  unfold fine_bracket_perc
  split_ifs <;> assumption

/-- C6: the expected_users_by_age table built by the calibration loop has
exactly the single years 60..100 as keys, and at every key the value is
ceil(population x local_age_distribution(bracket) / bracket_width x
usage_percentage(fine bracket)) - equal to the spec-side formula, never
below the fractional expected count (always rounded up), and non-negative;
the table is a pure function of its inputs. -/
theorem expected_users_table_correct (gen_pop_size : Nat) (age_distr_18 : Nat → ℚ)
    (bracket_len_18 : Nat → Nat) (bracket_of_18 : Nat → Nat)
    (p60_64 p65_74 p75_84 p85_100 : ℚ)
    (hd : ∀ b, 0 ≤ age_distr_18 b) (h60 : 0 ≤ p60_64) (h65 : 0 ≤ p65_74)
    (h75 : 0 ≤ p75_84) (h85 : 0 ≤ p85_100) :
    ((expected_users_by_age_table gen_pop_size age_distr_18 bracket_len_18 bracket_of_18
        p60_64 p65_74 p75_84 p85_100).map Prod.fst = List.range' 60 41) ∧
    (∀ kv ∈ expected_users_by_age_table gen_pop_size age_distr_18 bracket_len_18 bracket_of_18
        p60_64 p65_74 p75_84 p85_100,
      kv.2 = usage_count_spec gen_pop_size age_distr_18 bracket_len_18 bracket_of_18
          p60_64 p65_74 p75_84 p85_100 kv.1 ∧
      0 ≤ kv.2 ∧
      (gen_pop_size : ℚ) * age_distr_18 (bracket_of_18 kv.1) /
          (bracket_len_18 (bracket_of_18 kv.1) : ℚ) *
          fine_bracket_perc p60_64 p65_74 p75_84 p85_100 kv.1 ≤ (kv.2 : ℚ)) := by
  constructor
  · have hid : (Prod.fst ∘ fun a =>
        (a, expected_users_by_age gen_pop_size age_distr_18 bracket_len_18 bracket_of_18
              p60_64 p65_74 p75_84 p85_100 a)) = id := by
      funext a
      rfl
    rw [expected_users_by_age_table, List.map_map, hid, List.map_id]
  · intro kv hkv
    simp only [expected_users_by_age_table, List.mem_map] at hkv
    obtain ⟨a, ha, rfl⟩ := hkv
    rw [List.mem_range'_1] at ha
    have heq : expected_users_by_age gen_pop_size age_distr_18 bracket_len_18 bracket_of_18
        p60_64 p65_74 p75_84 p85_100 a =
        usage_count_spec gen_pop_size age_distr_18 bracket_len_18 bracket_of_18
          p60_64 p65_74 p75_84 p85_100 a := by
      simp only [expected_users_by_age, usage_count_spec, fine_bracket_perc]
      split_ifs <;> first | rfl | omega
    have hbase : 0 ≤ (gen_pop_size : ℚ) * age_distr_18 (bracket_of_18 a) /
        (bracket_len_18 (bracket_of_18 a) : ℚ) := by
      apply div_nonneg
      · exact mul_nonneg (Nat.cast_nonneg _) (hd _)
      · exact Nat.cast_nonneg _
    have hfp := fine_bracket_perc_nonneg p60_64 p65_74 p75_84 p85_100 h60 h65 h75 h85 a
    refine ⟨heq, ?_, ?_⟩
    · rw [heq]
      exact Int.ceil_nonneg (mul_nonneg hbase hfp)
    · rw [heq]
      exact Int.le_ceil _

/-- Witness: the calibration theorem applied to concrete inputs (one
bracket of unit width and mass, percentages all one, population 100). -/
theorem expected_users_table_correct_witness :
    (∀ b : Nat, (0 : ℚ) ≤ (fun _ : Nat => (1 : ℚ)) b) ∧
    (((expected_users_by_age_table 100 (fun _ => 1) (fun _ => 1) (fun _ => 0)
        1 1 1 1).map Prod.fst = List.range' 60 41) ∧
      (∀ kv ∈ expected_users_by_age_table 100 (fun _ => 1) (fun _ => 1) (fun _ => 0) 1 1 1 1,
        kv.2 = usage_count_spec 100 (fun _ => 1) (fun _ => 1) (fun _ => 0) 1 1 1 1 kv.1 ∧
        0 ≤ kv.2 ∧
        (100 : ℚ) * (fun _ : Nat => (1 : ℚ)) ((fun _ : Nat => 0) kv.1) /
            (((fun _ : Nat => 1) kv.1 : Nat) : ℚ) *
            fine_bracket_perc 1 1 1 1 kv.1 ≤ (kv.2 : ℚ))) :=
  ⟨fun _ => zero_le_one,
    expected_users_table_correct 100 (fun _ => 1) (fun _ => 1) (fun _ => 0) 1 1 1 1
      (fun _ => zero_le_one) zero_le_one zero_le_one zero_le_one zero_le_one⟩

theorem sum_deplete (nq : ℚ) (d : Nat → ℚ) (a : Nat) (ha : a < 101) :
    ∑ x in Finset.range 101, deplete nq d a x =
      (∑ x in Finset.range 101, d x) - 1 / nq := by
  have hmem : a ∈ Finset.range 101 := Finset.mem_range.mpr ha
  unfold deplete
  rw [Finset.sum_update_of_mem hmem, Finset.sdiff_singleton_eq_erase,
    ← Finset.add_sum_erase _ d hmem]
  ring

theorem sum_deplete_singles (nq : ℚ) :
    ∀ (heads1 : List Nat) (d : Nat → ℚ), (∀ h ∈ heads1, h < 101) →
      ∑ x in Finset.range 101, deplete_singles nq d heads1 x =
        (∑ x in Finset.range 101, d x) - (heads1.length : ℚ) * (1 / nq) := by
  intro heads1
  induction heads1 with
  | nil =>
    intro d hh
    simp [deplete_singles]
  | cons h t ih =>
    intro d hh
    have hmem : h < 101 := hh h (List.mem_cons_self h t)
    have hrest : ∀ y ∈ t, y < 101 := fun y hy => hh y (List.mem_cons_of_mem h hy)
    have hstep : deplete_singles nq d (h :: t) = deplete_singles nq (deplete nq d h) t := rfl
    rw [hstep, ih (deplete nq d h) hrest, sum_deplete nq d h hmem, List.length_cons]
    push_cast
    ring

theorem draw_ages_fst_length (nq : ℚ) (draw : Nat → Nat) :
    ∀ k ctr d, (draw_ages nq draw k ctr d).1.length = k := by
  intro k
  induction k with
  | zero => intro ctr d; rfl
  | succ k ih =>
    intro ctr d
    simp only [draw_ages, List.length_cons]
    rw [ih]

theorem draw_ages_sum (nq : ℚ) (draw : Nat → Nat) (hdraw : ∀ i, draw i < 101) :
    ∀ k ctr d, ∑ x in Finset.range 101, (draw_ages nq draw k ctr d).2.2 x =
      (∑ x in Finset.range 101, d x) - (k : ℚ) * (1 / nq) := by
  intro k
  induction k with
  | zero => intro ctr d; simp [draw_ages]
  | succ k ih =>
    intro ctr d
    simp only [draw_ages]
    rw [ih (ctr + 1) (deplete nq d (draw ctr)), sum_deplete nq d (draw ctr) (hdraw ctr)]
    push_cast
    ring

theorem generate_larger_households_sizes (nq : ℚ) (draw : Nat → Nat) (size : Nat) :
    ∀ count ctr d,
      (((generate_larger_households nq draw size count ctr d).1).map List.length).sum =
        count * size ∧
      (((generate_larger_households nq draw size count ctr d).1).length = count ∧
        ∀ home ∈ (generate_larger_households nq draw size count ctr d).1,
          home.length = size) := by
  intro count
  induction count with
  | zero =>
    intro ctr d
    refine ⟨by simp [generate_larger_households], rfl, ?_⟩
    intro home hmem
    exact absurd hmem (by simp [generate_larger_households])
  | succ count ih =>
    intro ctr d
    simp only [generate_larger_households, List.map_cons, List.sum_cons, List.length_cons]
    obtain ⟨ihsum, ihlen, ihmem⟩ :=
      ih (draw_ages nq draw size ctr d).2.1 (draw_ages nq draw size ctr d).2.2
    refine ⟨?_, ?_, ?_⟩
    · rw [draw_ages_fst_length, ihsum]
      ring
    · rw [ihlen]
    · intro home hmem
      rcases List.mem_cons.mp hmem with hhd | htl
      · rw [hhd]
        exact draw_ages_fst_length nq draw size ctr d
      · exact ihmem home htl

theorem generate_larger_households_sum (nq : ℚ) (draw : Nat → Nat)
    (hdraw : ∀ i, draw i < 101) (size : Nat) :
    ∀ count ctr d,
      ∑ x in Finset.range 101, (generate_larger_households nq draw size count ctr d).2.2 x =
        (∑ x in Finset.range 101, d x) - ((count * size : Nat) : ℚ) * (1 / nq) := by
  intro count
  induction count with
  | zero => intro ctr d; simp [generate_larger_households]
  | succ count ih =>
    intro ctr d
    simp only [generate_larger_households]
    rw [ih (draw_ages nq draw size ctr d).2.1 (draw_ages nq draw size ctr d).2.2,
      draw_ages_sum nq draw hdraw size ctr d]
    push_cast
    ring

theorem fold_gen_sizes_sum (nq : ℚ) (draw : Nat → Nat) (hh_sizes : Nat → Nat)
    (hdraw : ∀ i, draw i < 101) :
    ∀ (szs : List Nat) (acc : List (List Nat) × Nat × (Nat → ℚ)),
      ∑ x in Finset.range 101, (szs.foldl (gen_sizes_step nq draw hh_sizes) acc).2.2 x =
        (∑ x in Finset.range 101, acc.2.2 x) -
          (((szs.map (fun s => s * hh_sizes (s - 1))).sum : Nat) : ℚ) * (1 / nq) := by
  intro szs
  induction szs with
  | nil => intro acc; simp
  | cons s t ih =>
    intro acc
    rw [List.foldl_cons, ih (gen_sizes_step nq draw hh_sizes acc s)]
    have hstep : ∑ x in Finset.range 101, (gen_sizes_step nq draw hh_sizes acc s).2.2 x =
        (∑ x in Finset.range 101, acc.2.2 x) - ((s * hh_sizes (s - 1) : Nat) : ℚ) * (1 / nq) := by
      simp only [gen_sizes_step]
      rw [generate_larger_households_sum nq draw hdraw s (hh_sizes (s - 1)) acc.2.1 acc.2.2]
      push_cast
      ring
    rw [hstep, List.map_cons, List.sum_cons]
    push_cast
    ring

theorem fold_gen_sizes_homes (nq : ℚ) (draw : Nat → Nat) (hh_sizes : Nat → Nat) :
    ∀ (szs : List Nat) (acc : List (List Nat) × Nat × (Nat → ℚ)),
      (((szs.foldl (gen_sizes_step nq draw hh_sizes) acc).1).map List.length).sum =
        ((acc.1.map List.length).sum) + (szs.map (fun s => s * hh_sizes (s - 1))).sum := by
  intro szs
  induction szs with
  | nil => intro acc; simp
  | cons s t ih =>
    intro acc
    rw [List.foldl_cons, ih (gen_sizes_step nq draw hh_sizes acc s), List.map_cons, List.sum_cons]
    have hstep : (((gen_sizes_step nq draw hh_sizes acc s).1).map List.length).sum =
        (acc.1.map List.length).sum + s * hh_sizes (s - 1) := by
      simp only [gen_sizes_step]
      rw [List.map_append, List.sum_append,
        (generate_larger_households_sizes nq draw s (hh_sizes (s - 1)) acc.2.1 acc.2.2).1]
      ring
    rw [hstep]
    ring

theorem singles_maps_length (heads1 : List Nat) :
    ((heads1.map (fun h => [h])).map List.length).sum = heads1.length := by
  induction heads1 with
  | nil => rfl
  | cons h t ih =>
    have hstep : (((h :: t).map (fun y => [y])).map List.length).sum =
        1 + ((t.map (fun y => [y])).map List.length).sum := by
      simp
    rw [hstep, ih, List.length_cons]
    omega

theorem generate_all_households_total (nq : ℚ) (hh_sizes : Nat → Nat) (heads1 : List Nat)
    (draw : Nat → Nat) (d0 : Nat → ℚ) (hh1 : heads1.length = hh_sizes 0) :
    (((generate_all_households nq hh_sizes heads1 draw d0).1).map List.length).sum =
      ((List.range' 1 7).map (fun s => s * hh_sizes (s - 1))).sum := by
  simp only [generate_all_households]
  rw [fold_gen_sizes_homes, singles_maps_length, hh1]
  have hr : List.range' 1 7 = 1 :: [2, 3, 4, 5, 6, 7] := rfl
  rw [hr, List.map_cons, List.sum_cons]
  simp

/-- C8: the working single-year age distribution is depleted in place as
individuals are allocated: after the size-1 stage, the total mass over ages
0..100 is exactly 1 minus (number of size-1 households)/N, and the same
depletion continues through the sizes 2..7 stage so that the final working
distribution's total mass is 1 minus (total individuals allocated)/N,
preventing double-counting across household sizes. -/
theorem household_depletion_invariant (nq : ℚ) (hh_sizes : Nat → Nat) (heads1 : List Nat)
    (draw : Nat → Nat) (d0 : Nat → ℚ)
    (hh1 : heads1.length = hh_sizes 0)
    (hheads : ∀ h ∈ heads1, h < 101) (hdraw : ∀ i, draw i < 101)
    (hsum : ∑ x in Finset.range 101, d0 x = 1) :
    (∑ x in Finset.range 101, deplete_singles nq d0 heads1 x =
      1 - (hh_sizes 0 : ℚ) / nq) ∧
    (∑ x in Finset.range 101, (generate_all_households nq hh_sizes heads1 draw d0).2 x =
      1 - ((((List.range' 1 7).map (fun s => s * hh_sizes (s - 1))).sum : Nat) : ℚ) / nq) := by
  constructor
  · rw [sum_deplete_singles nq heads1 d0 hheads, hsum, hh1]
    ring
  · have hfin : (generate_all_households nq hh_sizes heads1 draw d0).2 =
        ([2, 3, 4, 5, 6, 7].foldl (gen_sizes_step nq draw hh_sizes)
          (heads1.map (fun h => [h]), 0, deplete_singles nq d0 heads1)).2.2 := rfl
    have hsplit : ((List.range' 1 7).map (fun s => s * hh_sizes (s - 1))).sum =
        hh_sizes 0 + (([2, 3, 4, 5, 6, 7].map (fun s => s * hh_sizes (s - 1))).sum) := by
      have hr : List.range' 1 7 = 1 :: [2, 3, 4, 5, 6, 7] := rfl
      rw [hr, List.map_cons, List.sum_cons]
      simp
    rw [hfin, fold_gen_sizes_sum nq draw hh_sizes hdraw,
      sum_deplete_singles nq heads1 d0 hheads, hsum, hh1, hsplit]
    push_cast
    ring

/-- Witness: the depletion theorem on a concrete run with one size-1 and one
size-s household for every s, population parameter N = 101 and the uniform
distribution on ages 0..100. -/
theorem household_depletion_invariant_witness :
    ([50] : List Nat).length = (fun _ : Nat => 1) 0 ∧
    (∀ h ∈ ([50] : List Nat), h < 101) ∧
    (∀ i : Nat, (fun _ : Nat => 30) i < 101) ∧
    (∑ x in Finset.range 101, (fun _ : Nat => (1 : ℚ) / 101) x = 1) ∧
    ((∑ x in Finset.range 101, deplete_singles 101 (fun _ => (1 : ℚ) / 101) [50] x =
        1 - ((fun _ : Nat => 1) 0 : ℚ) / 101) ∧
      (∑ x in Finset.range 101,
          (generate_all_households 101 (fun _ => 1) [50] (fun _ => 30) (fun _ => (1 : ℚ) / 101)).2 x =
        1 - ((((List.range' 1 7).map (fun s => s * (fun _ : Nat => 1) (s - 1))).sum : Nat) : ℚ) / 101)) :=
  ⟨rfl, by decide, fun _ => by norm_num, by simp,
    household_depletion_invariant 101 (fun _ => 1) [50] (fun _ => 30) (fun _ => (1 : ℚ) / 101)
      rfl (by decide) (fun _ => by norm_num) (by simp)⟩

/-- C5: the sum of all generated households' sizes plus the sum of all
facilities' sizes equals the target population size: the household stage is
run for n = gen_pop_size minus the facility residents (line 507), and under
the external household-size generator's contract (the size counts sum with
multiplicity to n) the homes produced by generate_all_households carry
exactly n individuals, so facilities plus (shuffled) households cover
gen_pop_size people with none missing and none duplicated. -/
theorem population_size_conserved (nq : ℚ) (hh_sizes : Nat → Nat) (heads1 : List Nat)
    (draw : Nat → Nat) (d0 : Nat → ℚ) (facilities shuffled_homes : List (List Nat))
    (gen_pop_size : Nat)
    (hh1 : heads1.length = hh_sizes 0)
    (hfac : (facilities.map List.length).sum ≤ gen_pop_size)
    (hcontract : ((List.range' 1 7).map (fun s => s * hh_sizes (s - 1))).sum =
      gen_pop_size - (facilities.map List.length).sum)
    (hperm : shuffled_homes.Perm (generate_all_households nq hh_sizes heads1 draw d0).1) :
    ((facilities ++ shuffled_homes).map List.length).sum = gen_pop_size := by
  rw [List.map_append, List.sum_append]
  have hshuf : (shuffled_homes.map List.length).sum =
      (((generate_all_households nq hh_sizes heads1 draw d0).1).map List.length).sum :=
    (hperm.map List.length).sum_eq
  rw [hshuf, generate_all_households_total nq hh_sizes heads1 draw d0 hh1, hcontract]
  omega

/-- Witness: population conservation on a concrete run - one facility with
two residents, a target population of 30, and one household of each size
1..7 (28 household members). -/
theorem population_size_conserved_witness :
    ([50] : List Nat).length = (fun _ : Nat => 1) 0 ∧
    (([[60, 61]] : List (List Nat)).map List.length).sum ≤ 30 ∧
    ((List.range' 1 7).map (fun s => s * (fun _ : Nat => 1) (s - 1))).sum =
      30 - (([[60, 61]] : List (List Nat)).map List.length).sum ∧
    ((([[60, 61]] : List (List Nat)) ++
        (generate_all_households 101 (fun _ => 1) [50] (fun _ => 30)
          (fun _ => (1 : ℚ) / 101)).1).map List.length).sum = 30 :=
  ⟨rfl, by decide, by decide,
    population_size_conserved 101 (fun _ => 1) [50] (fun _ => 30) (fun _ => (1 : ℚ) / 101)
      [[60, 61]] _ 30 rfl (by decide) (by decide) (List.Perm.refl _)⟩

theorem list_sum_map_update (f : Nat → Nat) (a v : Nat) :
    ∀ l : List Nat, l.Nodup → a ∈ l →
      (l.map (Function.update f a v)).sum + f a = (l.map f).sum + v := by
  intro l
  induction l with
  | nil => intro _ ha; cases ha
  | cons x t ih =>
    intro hnd ha
    rcases List.mem_cons.mp ha with hx | ht
    · subst hx
      have hnot : a ∉ t := (List.nodup_cons.mp hnd).1
      have hmap : t.map (Function.update f a v) = t.map f := by
        apply List.map_congr_left
        intro y hy
        have hya : y ≠ a := fun h => hnot (h ▸ hy)
        exact Function.update_noteq hya v f
      simp only [List.map_cons, List.sum_cons, hmap, Function.update_same]
      omega
    · have hx : x ≠ a := by
        intro h
        exact (List.nodup_cons.mp hnd).1 (h ▸ ht)
      have hrec := ih (List.nodup_cons.mp hnd).2 ht
      simp only [List.map_cons, List.sum_cons, Function.update_noteq hx v f]
      omega

theorem staff_age_range_nodup : staff_age_range.Nodup := by
  decide

theorem chosen_age_mem (idx : Nat) (pool : WorkerPool) (h : supply pool ≠ 0) :
    chosen_age idx pool ∈ staff_age_range ∧ 0 < pool.toAssign (chosen_age idx pool) := by
  have hpos_ne : staff_age_range.filter (fun a => 0 < pool.toAssign a) ≠ [] := by
    intro hnil
    apply h
    apply List.sum_eq_zero
    intro x hx
    rcases List.mem_map.mp hx with ⟨b, hb, rfl⟩
    by_contra hz
    have hbmem : b ∈ staff_age_range.filter (fun a => 0 < pool.toAssign a) :=
      List.mem_filter.mpr ⟨hb, decide_eq_true (Nat.pos_of_ne_zero hz)⟩
    rw [hnil] at hbmem
    cases hbmem
  have hlt : idx % (staff_age_range.filter (fun a => 0 < pool.toAssign a)).length <
      (staff_age_range.filter (fun a => 0 < pool.toAssign a)).length :=
    Nat.mod_lt _ (List.length_pos.mpr hpos_ne)
  have hmem : chosen_age idx pool ∈ staff_age_range.filter (fun a => 0 < pool.toAssign a) := by
    rw [chosen_age, List.getD_eq_getElem _ _ hlt]
    exact List.getElem_mem hlt
  rcases List.mem_filter.mp hmem with ⟨h1, h2⟩
  exact ⟨h1, of_decide_eq_true h2⟩

theorem draw_staff_slot_inv (idx : Nat) (pool : WorkerPool) (a uid : Nat)
    (pool2 : WorkerPool)
    (hok : draw_staff_slot idx pool = Except.ok (a, uid, pool2)) :
    supply pool ≠ 0 ∧ a = chosen_age idx pool ∧
      ∃ rest, pool.byAge (chosen_age idx pool) = uid :: rest ∧
        pool2 = slot_next_pool idx pool uid rest := by
  by_cases h : (staff_age_range.map pool.toAssign).sum = 0
  · rw [draw_staff_slot, if_pos h] at hok
    cases hok
  · rcases hcase : pool.byAge (chosen_age idx pool) with _ | ⟨u, rest⟩
    · rw [draw_staff_slot, if_neg h, hcase] at hok
      cases hok
    · rw [draw_staff_slot, if_neg h, hcase] at hok
      have hinj := Except.ok.inj hok
      have hu : u = uid := congrArg (fun p => p.2.1) hinj
      subst hu
      exact ⟨h, (congrArg Prod.fst hinj).symm, rest, rfl,
        (congrArg (fun p => p.2.2) hinj).symm⟩


theorem draw_staff_slot_of_pos (idx : Nat) (pool : WorkerPool) (hinv : PoolInv pool)
    (h : supply pool ≠ 0) :
    ∃ uid rest, pool.byAge (chosen_age idx pool) = uid :: rest ∧
      draw_staff_slot idx pool =
        Except.ok (chosen_age idx pool, uid, slot_next_pool idx pool uid rest) := by
  obtain ⟨hmem, hpos⟩ := chosen_age_mem idx pool h
  have hle := hinv.2.2.1 _ hmem
  rcases hcase : pool.byAge (chosen_age idx pool) with _ | ⟨uid, rest⟩
  · rw [hcase] at hle
    simp at hle
    omega
  · refine ⟨uid, rest, rfl, ?_⟩
    have h2 : ¬(staff_age_range.map pool.toAssign).sum = 0 := h
    rw [draw_staff_slot, if_neg h2, hcase]

theorem slot_next_pool_byAge_same (idx : Nat) (pool : WorkerPool) (uid : Nat)
    (rest : List Nat) :
    (slot_next_pool idx pool uid rest).byAge (chosen_age idx pool) = rest := by
  simp [slot_next_pool]

theorem slot_next_pool_byAge_other (idx : Nat) (pool : WorkerPool) (uid : Nat)
    (rest : List Nat) (b : Nat) (hb : b ≠ chosen_age idx pool) :
    (slot_next_pool idx pool uid rest).byAge b = pool.byAge b := by
  simp [slot_next_pool, Function.update_noteq hb]

theorem slot_next_pool_toAssign_same (idx : Nat) (pool : WorkerPool) (uid : Nat)
    (rest : List Nat) :
    (slot_next_pool idx pool uid rest).toAssign (chosen_age idx pool) =
      pool.toAssign (chosen_age idx pool) - 1 := by
  simp [slot_next_pool]

theorem slot_next_pool_toAssign_other (idx : Nat) (pool : WorkerPool) (uid : Nat)
    (rest : List Nat) (b : Nat) (hb : b ≠ chosen_age idx pool) :
    (slot_next_pool idx pool uid rest).toAssign b = pool.toAssign b := by
  simp [slot_next_pool, Function.update_noteq hb]

theorem slot_next_pool_spec (idx : Nat) (pool : WorkerPool) (hinv : PoolInv pool)
    (h : supply pool ≠ 0) (uid : Nat) (rest : List Nat)
    (hcase : pool.byAge (chosen_age idx pool) = uid :: rest) :
    PoolInv (slot_next_pool idx pool uid rest) ∧
      uid ∈ pool.byUid ∧
      (∀ b ∈ staff_age_range, uid ∉ (slot_next_pool idx pool uid rest).byAge b) ∧
      uid ∉ (slot_next_pool idx pool uid rest).byUid ∧
      (∀ b ∈ staff_age_range, ∀ u ∈ (slot_next_pool idx pool uid rest).byAge b,
        u ∈ pool.byAge b) ∧
      (slot_next_pool idx pool uid rest).byUid ⊆ pool.byUid ∧
      supply (slot_next_pool idx pool uid rest) + 1 = supply pool := by
  obtain ⟨hinv1, hinv2, hinv3, hinv4⟩ := hinv
  obtain ⟨hamem, hapos⟩ := chosen_age_mem idx pool h
  have hnd : (uid :: rest).Nodup := hcase ▸ hinv1 _ hamem
  have huid_rest : uid ∉ rest := (List.nodup_cons.mp hnd).1
  have hrest_nd : rest.Nodup := (List.nodup_cons.mp hnd).2
  have huid_mem : uid ∈ pool.byAge (chosen_age idx pool) := by
    rw [hcase]
    exact List.mem_cons_self uid rest
  have hsub : ∀ b ∈ staff_age_range, ∀ u ∈ (slot_next_pool idx pool uid rest).byAge b,
      u ∈ pool.byAge b := by
    intro b hb u hu
    by_cases hba : b = chosen_age idx pool
    · subst hba
      rw [slot_next_pool_byAge_same] at hu
      rw [hcase]
      exact List.mem_cons_of_mem uid hu
    · rwa [slot_next_pool_byAge_other idx pool uid rest b hba] at hu
  have hne_uid : ∀ b ∈ staff_age_range, ∀ u ∈ (slot_next_pool idx pool uid rest).byAge b,
      u ≠ uid := by
    intro b hb u hu
    by_cases hba : b = chosen_age idx pool
    · subst hba
      rw [slot_next_pool_byAge_same] at hu
      exact fun he => huid_rest (he ▸ hu)
    · have hu2 := hsub b hb u hu
      intro he
      exact hinv2 _ hamem b hb (fun hab => hba hab.symm) uid huid_mem (he ▸ hu2)
  refine ⟨⟨?_, ?_, ?_, ?_⟩, hinv4 _ hamem uid huid_mem, ?_, ?_, hsub,
    Finset.erase_subset _ _, ?_⟩
  · intro b hb
    by_cases hba : b = chosen_age idx pool
    · subst hba
      rw [slot_next_pool_byAge_same]
      exact hrest_nd
    · rw [slot_next_pool_byAge_other idx pool uid rest b hba]
      exact hinv1 b hb
  · intro b hb c hc hbc u hu hu2
    exact hinv2 b hb c hc hbc u (hsub b hb u hu) (hsub c hc u hu2)
  · intro b hb
    by_cases hba : b = chosen_age idx pool
    · subst hba
      rw [slot_next_pool_toAssign_same, slot_next_pool_byAge_same]
      have h3 := hinv3 _ hamem
      rw [hcase, List.length_cons] at h3
      omega
    · rw [slot_next_pool_toAssign_other idx pool uid rest b hba,
        slot_next_pool_byAge_other idx pool uid rest b hba]
      exact hinv3 b hb
  · intro b hb u hu
    apply Finset.mem_erase.mpr
    exact ⟨hne_uid b hb u hu, hinv4 b hb u (hsub b hb u hu)⟩
  · intro b hb hmem2
    exact hne_uid b hb uid hmem2 rfl
  · exact Finset.not_mem_erase uid pool.byUid
  · have hupd := list_sum_map_update pool.toAssign (chosen_age idx pool)
      (pool.toAssign (chosen_age idx pool) - 1) staff_age_range staff_age_range_nodup hamem
    have h1 : supply (slot_next_pool idx pool uid rest) =
        (staff_age_range.map (Function.update pool.toAssign (chosen_age idx pool)
          (pool.toAssign (chosen_age idx pool) - 1))).sum := rfl
    have h2 : supply pool = (staff_age_range.map pool.toAssign).sum := rfl
    rw [h1, h2]
    omega

theorem assign_staff_ok (picks : Nat → Nat) :
    ∀ (n ctr : Nat) (pool : WorkerPool), PoolInv pool →
      ∀ ags us ctr2 pool2,
        assign_staff picks n ctr pool = Except.ok (ags, us, ctr2, pool2) →
        ags.length = n ∧ us.length = n ∧
        (∀ x ∈ ags, x ∈ staff_age_range) ∧
        us.Nodup ∧
        (∀ u ∈ us, u ∈ pool.byUid) ∧
        (∀ u ∈ us, u ∉ pool2.byUid ∧ ∀ b ∈ staff_age_range, u ∉ pool2.byAge b) ∧
        PoolInv pool2 ∧
        (∀ b ∈ staff_age_range, ∀ u ∈ pool2.byAge b, u ∈ pool.byAge b) ∧
        pool2.byUid ⊆ pool.byUid ∧
        supply pool2 + n = supply pool := by
  intro n
  induction n with
  | zero =>
    intro ctr pool hinv ags us ctr2 pool2 hok
    simp only [assign_staff, Except.ok.injEq, Prod.mk.injEq] at hok
    obtain ⟨h1, h2, h3, h4⟩ := hok
    subst h1
    subst h2
    subst h4
    refine ⟨rfl, rfl, ?_, List.nodup_nil, ?_, ?_, hinv, ?_, ?_, ?_⟩
    · intro x hx
      cases hx
    · intro u hu
      cases hu
    · intro u hu
      cases hu
    · intro b _ u hu
      exact hu
    · exact Finset.Subset.refl _
    · rw [Nat.add_zero]
  | succ n ih =>
    intro ctr pool hinv ags us ctr2 pool2 hok
    rcases hdraw : draw_staff_slot (picks ctr) pool with e | ⟨a, uid, pool1⟩
    · rw [assign_staff.eq_2, hdraw] at hok
      cases hok
    · obtain ⟨hsup0, ha, rest, hcase, hpool1⟩ :=
        draw_staff_slot_inv (picks ctr) pool a uid pool1 hdraw
      subst hpool1
      obtain ⟨hinvp, huid_in, huid_gone_age, huid_gone_uid, hsub_age, hsub_uid, hsupply⟩ :=
        slot_next_pool_spec (picks ctr) pool hinv hsup0 uid rest hcase
      rw [assign_staff.eq_2, hdraw] at hok
      simp only [] at hok
      rcases hrec : assign_staff picks n (ctr + 1) (slot_next_pool (picks ctr) pool uid rest)
        with e | ⟨ags1, us1, ctr1, pool3⟩
      · rw [hrec] at hok
        cases hok
      · rw [hrec] at hok
        simp only [Except.ok.injEq, Prod.mk.injEq] at hok
        obtain ⟨h1, h2, h3, h4⟩ := hok
        subst h1
        subst h2
        subst h4
        obtain ⟨il1, il2, iages, inodup, iin, igone, iinv, isubage, isubuid, isup⟩ :=
          ih (ctr + 1) _ hinvp ags1 us1 ctr1 pool3 hrec
        refine ⟨?_, ?_, ?_, ?_, ?_, ?_, iinv, ?_, ?_, ?_⟩
        · rw [List.length_cons, il1]
        · rw [List.length_cons, il2]
        · intro x hx
          rcases List.mem_cons.mp hx with hx0 | hx1
          · rw [hx0, ha]
            exact (chosen_age_mem (picks ctr) pool hsup0).1
          · exact iages x hx1
        · rw [List.nodup_cons]
          refine ⟨?_, inodup⟩
          intro hmem
          exact huid_gone_uid (iin uid hmem)
        · intro u hu
          rcases List.mem_cons.mp hu with hu0 | hu1
          · rw [hu0]
            exact huid_in
          · exact hsub_uid (iin u hu1)
        · intro u hu
          rcases List.mem_cons.mp hu with hu0 | hu1
          · subst hu0
            refine ⟨fun hmem => huid_gone_uid (isubuid hmem), ?_⟩
            intro b hb hmem
            exact huid_gone_age b hb (isubage b hb u hmem)
          · exact igone u hu1
        · intro b hb u hu
          exact hsub_age b hb u (isubage b hb u hu)
        · exact isubuid.trans hsub_uid
        · omega

theorem assign_staff_succeeds_iff (picks : Nat → Nat) :
    ∀ (n ctr : Nat) (pool : WorkerPool), PoolInv pool →
      ((∃ r, assign_staff picks n ctr pool = Except.ok r) ↔ n ≤ supply pool) := by
  intro n
  induction n with
  | zero =>
    intro ctr pool _
    constructor
    · intro _
      exact Nat.zero_le _
    · intro _
      exact ⟨([], [], ctr, pool), rfl⟩
  | succ n ih =>
    intro ctr pool hinv
    constructor
    · rintro ⟨r, hr⟩
      rcases hdraw : draw_staff_slot (picks ctr) pool with e | ⟨a, uid, pool1⟩
      · rw [assign_staff.eq_2, hdraw] at hr
        cases hr
      · obtain ⟨hsup0, ha, rest, hcase, hpool1⟩ :=
          draw_staff_slot_inv (picks ctr) pool a uid pool1 hdraw
        subst hpool1
        obtain ⟨hinvp, _, _, _, _, _, hsupply⟩ :=
          slot_next_pool_spec (picks ctr) pool hinv hsup0 uid rest hcase
        rw [assign_staff.eq_2, hdraw] at hr
        simp only [] at hr
        rcases hrec : assign_staff picks n (ctr + 1) (slot_next_pool (picks ctr) pool uid rest)
          with e | r2
        · rw [hrec] at hr
          cases hr
        · have hn := (ih (ctr + 1) _ hinvp).mp ⟨r2, hrec⟩
          omega
    · intro hle
      have hsup0 : supply pool ≠ 0 := by omega
      obtain ⟨uid, rest, hcase, hdraw⟩ := draw_staff_slot_of_pos (picks ctr) pool hinv hsup0
      obtain ⟨hinvp, _, _, _, _, _, hsupply⟩ :=
        slot_next_pool_spec (picks ctr) pool hinv hsup0 uid rest hcase
      obtain ⟨⟨ags1, us1, ctr1, pool3⟩, hr⟩ := (ih (ctr + 1) _ hinvp).mpr (by omega)
      refine ⟨(chosen_age (picks ctr) pool :: ags1, uid :: us1, ctr1, pool3), ?_⟩
      rw [assign_staff.eq_2, hdraw]
      simp only []
      rw [hr]

theorem assign_facilities_staff_ok (picks : Nat → Nat) (ratio_sample : Nat → ℚ) :
    ∀ (facilities : List (List Nat)) (nf ctr : Nat) (pool : WorkerPool), PoolInv pool →
      ∀ agLists uidLists pool2,
        assign_facilities_staff picks ratio_sample facilities nf ctr pool =
          Except.ok (agLists, uidLists, pool2) →
        agLists.length = facilities.length ∧
        uidLists.length = facilities.length ∧
        (∀ i, i < facilities.length →
          (uidLists.getD i []).length =
            n_staff_of ((facilities.getD i []).length) (ratio_sample (nf + i))) ∧
        (∀ l ∈ agLists, ∀ x ∈ l, x ∈ staff_age_range) ∧
        uidLists.flatten.Nodup ∧
        (∀ u ∈ uidLists.flatten, u ∈ pool.byUid) ∧
        (∀ u ∈ uidLists.flatten, u ∉ pool2.byUid ∧ ∀ b ∈ staff_age_range, u ∉ pool2.byAge b) ∧
        PoolInv pool2 ∧
        (∀ b ∈ staff_age_range, ∀ u ∈ pool2.byAge b, u ∈ pool.byAge b) ∧
        pool2.byUid ⊆ pool.byUid ∧
        supply pool2 + uidLists.flatten.length = supply pool := by
  intro facilities
  induction facilities with
  | nil =>
    intro nf ctr pool hinv agLists uidLists pool2 hok
    simp only [assign_facilities_staff, Except.ok.injEq, Prod.mk.injEq] at hok
    obtain ⟨h1, h2, h3⟩ := hok
    subst h1
    subst h2
    subst h3
    refine ⟨rfl, rfl, ?_, ?_, List.nodup_nil, ?_, ?_, hinv, ?_, Finset.Subset.refl _, ?_⟩
    · intro i hi
      cases hi
    · intro l hl
      cases hl
    · intro u hu
      cases hu
    · intro u hu
      cases hu
    · intro b _ u hu
      exact hu
    · simp only [List.flatten_nil, List.length_nil, Nat.add_zero]
  | cons fc rest ihf =>
    intro nf ctr pool hinv agLists uidLists pool2 hok
    rcases hstaff : assign_staff picks (n_staff_of fc.length (ratio_sample nf)) ctr pool
      with e | ⟨ags1, us1, ctr1, pool1⟩
    · rw [assign_facilities_staff.eq_2, hstaff] at hok
      cases hok
    · obtain ⟨hsl1, hsl2, hsages, hsnodup, hsin, hsgone, hsinv, hssubage, hssubuid, hssup⟩ :=
        assign_staff_ok picks _ ctr pool hinv ags1 us1 ctr1 pool1 hstaff
      rw [assign_facilities_staff.eq_2, hstaff] at hok
      simp only [] at hok
      rcases hrest : assign_facilities_staff picks ratio_sample rest (nf + 1) ctr1 pool1
        with e | ⟨agL2, uidL2, pool3⟩
      · rw [hrest] at hok
        cases hok
      · obtain ⟨hrl1, hrl2, hridx, hrages, hrnodup, hrin, hrgone, hrinv, hrsubage, hrsubuid,
          hrsup⟩ := ihf (nf + 1) ctr1 pool1 hsinv agL2 uidL2 pool3 hrest
        rw [hrest] at hok
        simp only [Except.ok.injEq, Prod.mk.injEq] at hok
        obtain ⟨h1, h2, h3⟩ := hok
        subst h1
        subst h2
        subst h3
        have hflat : (us1 :: uidL2).flatten = us1 ++ uidL2.flatten := rfl
        refine ⟨?_, ?_, ?_, ?_, ?_, ?_, ?_, hrinv, ?_, ?_, ?_⟩
        · rw [List.length_cons, List.length_cons, hrl1]
        · rw [List.length_cons, List.length_cons, hrl2]
        · intro i hi
          match i with
          | 0 =>
            simp only [List.getD_cons_zero, Nat.add_zero]
            exact hsl2
          | j + 1 =>
            have hj : j < rest.length := by
              rw [List.length_cons] at hi
              omega
            have := hridx j hj
            have hnf : nf + 1 + j = nf + (j + 1) := by omega
            rw [hnf] at this
            simpa using this
        · intro l hl
          rcases List.mem_cons.mp hl with hl0 | hl1
          · intro x hx
            exact hsages x (hl0 ▸ hx)
          · exact hrages l hl1
        · rw [hflat, List.nodup_append]
          refine ⟨hsnodup, hrnodup, ?_⟩
          intro u hu hu2
          exact (hsgone u hu).1 (hrin u hu2)
        · intro u hu
          rw [hflat, List.mem_append] at hu
          rcases hu with hu1 | hu2
          · exact hsin u hu1
          · exact hssubuid (hrin u hu2)
        · intro u hu
          rw [hflat, List.mem_append] at hu
          rcases hu with hu1 | hu2
          · refine ⟨fun hmem => (hsgone u hu1).1 (hrsubuid hmem), ?_⟩
            intro b hb hmem
            exact (hsgone u hu1).2 b hb (hrsubage b hb u hmem)
          · exact hrgone u hu2
        · intro b hb u hu
          exact hssubage b hb u (hrsubage b hb u hu)
        · exact hrsubuid.trans hssubuid
        · rw [hflat, List.length_append, hsl2]
          omega

theorem assign_facilities_staff_succeeds_iff (picks : Nat → Nat) (ratio_sample : Nat → ℚ) :
    ∀ (facilities : List (List Nat)) (nf ctr : Nat) (pool : WorkerPool), PoolInv pool →
      ((∃ r, assign_facilities_staff picks ratio_sample facilities nf ctr pool =
          Except.ok r) ↔
        staff_demand ratio_sample facilities nf ≤ supply pool) := by
  intro facilities
  induction facilities with
  | nil =>
    intro nf ctr pool _
    constructor
    · intro _
      exact Nat.zero_le _
    · intro _
      exact ⟨([], [], pool), rfl⟩
  | cons fc rest ihf =>
    intro nf ctr pool hinv
    constructor
    · rintro ⟨r, hr⟩
      rcases hstaff : assign_staff picks (n_staff_of fc.length (ratio_sample nf)) ctr pool
        with e | ⟨ags1, us1, ctr1, pool1⟩
      · rw [assign_facilities_staff.eq_2, hstaff] at hr
        cases hr
      · obtain ⟨_, hsl2, _, _, _, _, hsinv, _, _, hssup⟩ :=
          assign_staff_ok picks _ ctr pool hinv ags1 us1 ctr1 pool1 hstaff
        rw [assign_facilities_staff.eq_2, hstaff] at hr
        simp only [] at hr
        rcases hrest : assign_facilities_staff picks ratio_sample rest (nf + 1) ctr1 pool1
          with e | r2
        · rw [hrest] at hr
          cases hr
        · have hd := (ihf (nf + 1) ctr1 pool1 hsinv).mp ⟨r2, hrest⟩
          simp only [staff_demand]
          omega
    · intro hle
      simp only [staff_demand] at hle
      have hns : n_staff_of fc.length (ratio_sample nf) ≤ supply pool := by omega
      obtain ⟨⟨ags1, us1, ctr1, pool1⟩, hstaff⟩ :=
        (assign_staff_succeeds_iff picks _ ctr pool hinv).mpr hns
      obtain ⟨_, hsl2, _, _, _, _, hsinv, _, _, hssup⟩ :=
        assign_staff_ok picks _ ctr pool hinv ags1 us1 ctr1 pool1 hstaff
      obtain ⟨⟨agL2, uidL2, pool3⟩, hrest⟩ :=
        (ihf (nf + 1) ctr1 pool1 hsinv).mpr (by omega)
      refine ⟨(ags1 :: agL2, us1 :: uidL2, pool3), ?_⟩
      rw [assign_facilities_staff.eq_2, hstaff]
      simp only []
      rw [hrest]

theorem ok_staff_lists_some (e : Except String (List (List Nat) × List (List Nat) × WorkerPool))
    (A U : List (List Nat)) (h : ok_staff_lists e = some (A, U)) :
    ∃ pool2, e = Except.ok (A, U, pool2) := by
  rcases e with err | ⟨a, u, p⟩
  · simp [ok_staff_lists] at h
  · simp only [ok_staff_lists, Option.some.injEq, Prod.mk.injEq] at h
    refine ⟨p, ?_⟩
    rw [h.1, h.2]

theorem two_q_pos : ∀ i : Nat, 0 < (fun _ : Nat => (2 : ℚ)) i :=
  fun _ => by norm_num

/-- C4: for every facility the number of staff assigned equals
ceil(resident count / drawn resident:staff ratio); every staff age lies in
the 20..59 range; each slot consumes exactly one worker - the drawn uid
comes from the by-uid pool, ends up removed from both the by-uid dict and
every by-age list, and the per-age remaining counts drop by exactly the
number of slots filled - so no staff uid appears in more than one
facility's staff list (the flattened uid lists are duplicate free). -/
theorem staff_assignment_correct (picks : Nat → Nat) (ratio_sample : Nat → ℚ)
    (facilities : List (List Nat)) (pool : WorkerPool)
    (agLists uidLists : List (List Nat))
    (hinv : PoolInv pool) (_hq : ∀ i, 0 < ratio_sample i)
    (hok : ok_staff_lists
        (assign_facilities_staff picks ratio_sample facilities 0 0 pool) =
      some (agLists, uidLists)) :
    uidLists.length = facilities.length ∧
    (∀ i, i < facilities.length →
      (uidLists.getD i []).length =
        n_staff_of ((facilities.getD i []).length) (ratio_sample i)) ∧
    (∀ l ∈ agLists, ∀ x ∈ l, 20 ≤ x ∧ x ≤ 59) ∧
    uidLists.flatten.Nodup ∧
    (∀ u ∈ uidLists.flatten, u ∈ pool.byUid) ∧
    (∃ pool2,
      assign_facilities_staff picks ratio_sample facilities 0 0 pool =
        Except.ok (agLists, uidLists, pool2) ∧
      (∀ u ∈ uidLists.flatten,
        u ∉ pool2.byUid ∧ ∀ b ∈ staff_age_range, u ∉ pool2.byAge b) ∧
      supply pool2 + uidLists.flatten.length = supply pool) := by
  obtain ⟨pool2, he⟩ := ok_staff_lists_some _ _ _ hok
  obtain ⟨hl1, hl2, hidx, hages, hnodup, hin, hgone, hinv2, hsubage, hsubuid, hsup⟩ :=
    assign_facilities_staff_ok picks ratio_sample facilities 0 0 pool hinv
      agLists uidLists pool2 he
  refine ⟨hl2, ?_, ?_, hnodup, hin, ⟨pool2, he, hgone, hsup⟩⟩
  · intro i hi
    simpa using hidx i hi
  · intro l hl x hx
    have hxr := hages l hl x hx
    rw [staff_age_range, List.mem_range'_1] at hxr
    omega

theorem witness_pool_inv : PoolInv witness_pool := by
  unfold PoolInv
  decide

theorem staff_witness_ok :
    ok_staff_lists (assign_facilities_staff (fun _ => 0) (fun _ => (2 : ℚ))
      [[60]] 0 0 witness_pool) = some ([[20]], [[100]]) := by
  have hns1 : n_staff_of ([60] : List Nat).length (2 : ℚ) = 1 := by
    simp only [n_staff_of, List.length_singleton, Nat.cast_one]
    have hceil : Int.ceil ((1 : ℚ) / 2) = 1 := by
      rw [Int.ceil_eq_iff]
      constructor <;> norm_num
    rw [hceil]
    rfl
  have hstaff1 : assign_staff (fun _ : Nat => 0) 1 0 witness_pool =
      Except.ok ([20], [100], 1, slot_next_pool 0 witness_pool 100 [101]) := by rfl
  rw [assign_facilities_staff.eq_2]
  simp only [hns1, hstaff1]
  rw [assign_facilities_staff.eq_1]
  rfl

/-- Witness: the staff-assignment theorem at a concrete run - one facility
of one resident, ratio 2 drawn, and the two-worker pool, yielding staff
uid list [[100]] with ages [[20]]. -/
theorem staff_assignment_correct_witness :
    PoolInv witness_pool ∧
    (∀ i : Nat, 0 < (fun _ : Nat => (2 : ℚ)) i) ∧
    ok_staff_lists
        (assign_facilities_staff (fun _ => 0) (fun _ => (2 : ℚ)) [[60]] 0 0
          witness_pool) =
      some ([[20]], [[100]]) ∧
    (([[100]] : List (List Nat)).length = ([[60]] : List (List Nat)).length ∧
      (∀ i, i < ([[60]] : List (List Nat)).length →
        (([[100]] : List (List Nat)).getD i []).length =
          n_staff_of ((([[60]] : List (List Nat)).getD i []).length)
            ((fun _ : Nat => (2 : ℚ)) i)) ∧
      (∀ l ∈ ([[20]] : List (List Nat)), ∀ x ∈ l, 20 ≤ x ∧ x ≤ 59) ∧
      ([[100]] : List (List Nat)).flatten.Nodup ∧
      (∀ u ∈ ([[100]] : List (List Nat)).flatten, u ∈ witness_pool.byUid) ∧
      (∃ pool2,
        assign_facilities_staff (fun _ => 0) (fun _ => (2 : ℚ)) [[60]] 0 0
            witness_pool =
          Except.ok ([[20]], [[100]], pool2) ∧
        (∀ u ∈ ([[100]] : List (List Nat)).flatten,
          u ∉ pool2.byUid ∧ ∀ b ∈ staff_age_range, u ∉ pool2.byAge b) ∧
        supply pool2 + ([[100]] : List (List Nat)).flatten.length =
          supply witness_pool)) :=
  ⟨witness_pool_inv, two_q_pos, staff_witness_ok,
    staff_assignment_correct (fun _ => 0) (fun _ => (2 : ℚ)) [[60]] witness_pool
      [[20]] [[100]] witness_pool_inv two_q_pos staff_witness_ok⟩

/-- C9: staff assignment fails - numpy raising on the NaN probability
vector of an exhausted pool, a fatal uncaught error rather than a silent
truncation or a degenerate assignment - if and only if the eligible 20..59
worker pool cannot supply the total staff demanded, and when it succeeds
every facility's staff list has every slot filled (exactly the demanded
ceiling count). -/
theorem staff_pool_exhaustion_detected (picks : Nat → Nat) (ratio_sample : Nat → ℚ)
    (facilities : List (List Nat)) (pool : WorkerPool) (hinv : PoolInv pool) :
    (staff_assignment_succeeds
        (assign_facilities_staff picks ratio_sample facilities 0 0 pool) ↔
      staff_demand ratio_sample facilities 0 ≤ supply pool) ∧
    (∀ agLists uidLists pool2,
      assign_facilities_staff picks ratio_sample facilities 0 0 pool =
        Except.ok (agLists, uidLists, pool2) →
      uidLists.length = facilities.length ∧
      ∀ i, i < facilities.length →
        (uidLists.getD i []).length =
          n_staff_of ((facilities.getD i []).length) (ratio_sample i)) := by
  constructor
  · exact assign_facilities_staff_succeeds_iff picks ratio_sample facilities 0 0 pool hinv
  · intro agLists uidLists pool2 he
    obtain ⟨hl1, hl2, hidx, hrest⟩ :=
      assign_facilities_staff_ok picks ratio_sample facilities 0 0 pool hinv
        agLists uidLists pool2 he
    refine ⟨hl2, ?_⟩
    intro i hi
    simpa using hidx i hi

/-- Witness: the pool-exhaustion theorem at the concrete two-facility,
two-worker run (demand 2 equals supply 2, so assignment succeeds). -/
theorem staff_pool_exhaustion_detected_witness :
    PoolInv witness_pool ∧
    ((staff_assignment_succeeds
        (assign_facilities_staff (fun _ => 0) (fun _ => (2 : ℚ)) [[60], [61, 62]] 0 0
          witness_pool) ↔
      staff_demand (fun _ => (2 : ℚ)) [[60], [61, 62]] 0 ≤ supply witness_pool) ∧
    (∀ agLists uidLists pool2,
      assign_facilities_staff (fun _ => 0) (fun _ => (2 : ℚ)) [[60], [61, 62]] 0 0
          witness_pool =
        Except.ok (agLists, uidLists, pool2) →
      uidLists.length = ([[60], [61, 62]] : List (List Nat)).length ∧
      ∀ i, i < ([[60], [61, 62]] : List (List Nat)).length →
        (uidLists.getD i []).length =
          n_staff_of ((([[60], [61, 62]] : List (List Nat)).getD i []).length)
            ((fun _ : Nat => (2 : ℚ)) i))) :=
  ⟨witness_pool_inv,
    staff_pool_exhaustion_detected (fun _ => 0) (fun _ => (2 : ℚ)) [[60], [61, 62]]
      witness_pool witness_pool_inv⟩

theorem set_contacts_other_uid (pd : Nat → Person) (uid : Nat) (l : Layer) (s : Finset Nat)
    (v : Nat) (hv : v ≠ uid) : set_contacts pd uid l s v = pd v := by
  simp [set_contacts, hv]

theorem set_contacts_same (pd : Nat → Person) (uid : Nat) (l : Layer) (s : Finset Nat) :
    ((set_contacts pd uid l s) uid).contacts l = s := by
  simp [set_contacts]

theorem set_contacts_other_layer (pd : Nat → Person) (uid : Nat) (l : Layer)
    (s : Finset Nat) (v : Nat) (l2 : Layer) (hl : l2 ≠ l) :
    ((set_contacts pd uid l s) v).contacts l2 = (pd v).contacts l2 := by
  by_cases hv : v = uid
  · subst hv
    simp [set_contacts, hl]
  · simp [set_contacts, hv]

theorem set_snf_res_contacts (pd : Nat → Person) (uid v : Nat) :
    ((set_snf_res pd uid) v).contacts = (pd v).contacts := by
  by_cases hv : v = uid
  · subst hv
    simp [set_snf_res]
  · simp [set_snf_res, hv]

theorem set_snf_staff_contacts (pd : Nat → Person) (uid v : Nat) :
    ((set_snf_staff pd uid) v).contacts = (pd v).contacts := by
  by_cases hv : v = uid
  · subst hv
    simp [set_snf_staff]
  · simp [set_snf_staff, hv]

theorem set_snf_res_other_uid (pd : Nat → Person) (uid v : Nat) (hv : v ≠ uid) :
    (set_snf_res pd uid) v = pd v := by
  simp [set_snf_res, hv]

theorem set_snf_staff_other_uid (pd : Nat → Person) (uid v : Nat) (hv : v ≠ uid) :
    (set_snf_staff pd uid) v = pd v := by
  simp [set_snf_staff, hv]

theorem fold_step_not_mem (step : (Nat → Person) → Nat → (Nat → Person))
    (hstep_other : ∀ pd uid v, v ≠ uid → step pd uid v = pd v) :
    ∀ (g : List Nat) (pd : Nat → Person) (v : Nat), v ∉ g →
      (g.foldl step pd) v = pd v := by
  intro g
  induction g with
  | nil => intro pd v _; rfl
  | cons x t ih =>
    intro pd v hv
    rw [List.foldl_cons, ih (step pd x) v (fun h => hv (List.mem_cons_of_mem x h)),
      hstep_other pd x v (fun h => hv (h ▸ List.mem_cons_self x t))]

theorem fold_step_layer (l : Layer) (step : (Nat → Person) → Nat → (Nat → Person))
    (hstep_layer : ∀ pd uid v l2, l2 ≠ l →
      ((step pd uid) v).contacts l2 = (pd v).contacts l2) :
    ∀ (g : List Nat) (pd : Nat → Person) (v : Nat) (l2 : Layer),
      l2 ≠ l → ((g.foldl step pd) v).contacts l2 = (pd v).contacts l2 := by
  intro g
  induction g with
  | nil => intro pd v l2 _; rfl
  | cons x t ih =>
    intro pd v l2 hl
    rw [List.foldl_cons, ih (step pd x) v l2 hl, hstep_layer pd x v l2 hl]

theorem fold_step_mem (l : Layer) (F : Nat → Finset Nat)
    (step : (Nat → Person) → Nat → (Nat → Person))
    (hstep_other : ∀ pd uid v, v ≠ uid → step pd uid v = pd v)
    (hstep_same : ∀ pd uid, ((step pd uid) uid).contacts l = F uid) :
    ∀ (g : List Nat) (pd : Nat → Person) (v : Nat), v ∈ g →
      ((g.foldl step pd) v).contacts l = F v := by
  intro g
  induction g with
  | nil => intro pd v hv; cases hv
  | cons x t ih =>
    intro pd v hv
    rw [List.foldl_cons]
    by_cases hvt : v ∈ t
    · exact ih (step pd x) v hvt
    · have hvx : v = x := by
        rcases List.mem_cons.mp hv with h | h
        · exact h
        · exact absurd h hvt
      subst hvx
      rw [fold_step_not_mem step hstep_other t (step pd v) v hvt]
      exact hstep_same pd v

theorem add_group_step_other (l : Layer) (F : Nat → Finset Nat) :
    ∀ (pd : Nat → Person) (uid v : Nat), v ≠ uid →
      set_contacts pd uid l (F uid) v = pd v :=
  fun pd uid v hv => set_contacts_other_uid pd uid l (F uid) v hv

theorem add_group_mem (l : Layer) (g : List Nat) (pd : Nat → Person) (v : Nat) (hv : v ∈ g) :
    ((add_group l pd g) v).contacts l = g.toFinset.erase v := by
  unfold add_group
  exact fold_step_mem l (fun uid => g.toFinset.erase uid)
    (fun pd2 uid => set_contacts pd2 uid l (g.toFinset.erase uid))
    (fun pd2 uid v2 hv2 => set_contacts_other_uid pd2 uid l _ v2 hv2)
    (fun pd2 uid => set_contacts_same pd2 uid l _) g pd v hv

theorem add_group_not_mem (l : Layer) (g : List Nat) (pd : Nat → Person) (v : Nat)
    (hv : v ∉ g) : (add_group l pd g) v = pd v := by
  unfold add_group
  exact fold_step_not_mem
    (fun pd2 uid => set_contacts pd2 uid l (g.toFinset.erase uid))
    (fun pd2 uid v2 hv2 => set_contacts_other_uid pd2 uid l _ v2 hv2) g pd v hv

theorem add_group_layer (l : Layer) (g : List Nat) (pd : Nat → Person) (v : Nat) (l2 : Layer)
    (hl : l2 ≠ l) : ((add_group l pd g) v).contacts l2 = (pd v).contacts l2 := by
  unfold add_group
  exact fold_step_layer l
    (fun pd2 uid => set_contacts pd2 uid l (g.toFinset.erase uid))
    (fun pd2 uid v2 l3 hl3 => set_contacts_other_layer pd2 uid l _ v2 l3 hl3) g pd v l2 hl

theorem groups_fold_layer (l : Layer) :
    ∀ (gs : List (List Nat)) (pd : Nat → Person) (v : Nat) (l2 : Layer), l2 ≠ l →
      ((gs.foldl (add_group l) pd) v).contacts l2 = (pd v).contacts l2 := by
  intro gs
  induction gs with
  | nil => intro pd v l2 _; rfl
  | cons g t ih =>
    intro pd v l2 hl
    rw [List.foldl_cons, ih (add_group l pd g) v l2 hl, add_group_layer l g pd v l2 hl]

theorem groups_fold_not_mem (l : Layer) :
    ∀ (gs : List (List Nat)) (pd : Nat → Person) (v : Nat), (∀ g ∈ gs, v ∉ g) →
      ((gs.foldl (add_group l) pd) v) = pd v := by
  intro gs
  induction gs with
  | nil => intro pd v _; rfl
  | cons g t ih =>
    intro pd v hv
    rw [List.foldl_cons, ih (add_group l pd g) v
        (fun g2 hg2 => hv g2 (List.mem_cons_of_mem g hg2)),
      add_group_not_mem l g pd v (hv g (List.mem_cons_self g t))]

theorem groups_fold_mem (l : Layer) :
    ∀ (gs : List (List Nat)),
      gs.Pairwise (fun g1 g2 => ∀ u ∈ g1, u ∉ g2) →
      ∀ (pd : Nat → Person) (g : List Nat), g ∈ gs → ∀ v ∈ g,
        ((gs.foldl (add_group l) pd) v).contacts l = g.toFinset.erase v := by
  intro gs
  induction gs with
  | nil =>
    intro _ pd g hg
    cases hg
  | cons g0 t ih =>
    intro hdisj pd g hg v hv
    rw [List.foldl_cons]
    rcases List.mem_cons.mp hg with hg0 | hgt
    · subst hg0
      have hvnot : ∀ g2 ∈ t, v ∉ g2 := fun g2 hg2 =>
        (List.pairwise_cons.mp hdisj).1 g2 hg2 v hv
      rw [groups_fold_not_mem l t (add_group l pd g) v hvnot,
        add_group_mem l g pd v hv]
    · exact ih (List.pairwise_cons.mp hdisj).2 (add_group l pd g0) g hgt v hv

theorem add_facility_LTCF_mem (pd : Nat → Person) (f st : List Nat) (v : Nat) (hv : v ∈ f) :
    ((add_facility pd f st) v).contacts Layer.LTCF =
      (f.toFinset ∪ st.toFinset).erase v := by
  simp only [add_facility]
  rw [fold_step_layer Layer.W
    (fun pd2 uid => set_snf_staff
      (set_contacts pd2 uid Layer.W ((f.toFinset ∪ st.toFinset).erase uid)) uid)
    (fun pd2 uid v2 l2 hl2 => by
      simp only []
      rw [set_snf_staff_contacts, set_contacts_other_layer _ _ _ _ _ _ hl2])
    st _ v Layer.LTCF (by decide)]
  exact fold_step_mem Layer.LTCF (fun uid => (f.toFinset ∪ st.toFinset).erase uid)
    (fun pd2 uid => set_snf_res
      (set_contacts pd2 uid Layer.LTCF ((f.toFinset ∪ st.toFinset).erase uid)) uid)
    (fun pd2 uid v2 hv2 => by
      simp only []
      rw [set_snf_res_other_uid _ _ _ hv2, set_contacts_other_uid _ _ _ _ _ hv2])
    (fun pd2 uid => by
      simp only []
      rw [set_snf_res_contacts]
      exact set_contacts_same _ _ _ _)
    f pd v hv

theorem add_facility_LTCF_not_mem (pd : Nat → Person) (f st : List Nat) (v : Nat)
    (hv : v ∉ f) :
    ((add_facility pd f st) v).contacts Layer.LTCF = (pd v).contacts Layer.LTCF := by
  simp only [add_facility]
  rw [fold_step_layer Layer.W
    (fun pd2 uid => set_snf_staff
      (set_contacts pd2 uid Layer.W ((f.toFinset ∪ st.toFinset).erase uid)) uid)
    (fun pd2 uid v2 l2 hl2 => by
      simp only []
      rw [set_snf_staff_contacts, set_contacts_other_layer _ _ _ _ _ _ hl2])
    st _ v Layer.LTCF (by decide),
    fold_step_not_mem
    (fun pd2 uid => set_snf_res
      (set_contacts pd2 uid Layer.LTCF ((f.toFinset ∪ st.toFinset).erase uid)) uid)
    (fun pd2 uid v2 hv2 => by
      simp only []
      rw [set_snf_res_other_uid _ _ _ hv2, set_contacts_other_uid _ _ _ _ _ hv2])
    f pd v hv]

theorem add_facility_W_staff (pd : Nat → Person) (f st : List Nat) (v : Nat) (hv : v ∈ st) :
    ((add_facility pd f st) v).contacts Layer.W =
      (f.toFinset ∪ st.toFinset).erase v := by
  simp only [add_facility]
  exact fold_step_mem Layer.W (fun uid => (f.toFinset ∪ st.toFinset).erase uid)
    (fun pd2 uid => set_snf_staff
      (set_contacts pd2 uid Layer.W ((f.toFinset ∪ st.toFinset).erase uid)) uid)
    (fun pd2 uid v2 hv2 => by
      simp only []
      rw [set_snf_staff_other_uid _ _ _ hv2, set_contacts_other_uid _ _ _ _ _ hv2])
    (fun pd2 uid => by
      simp only []
      rw [set_snf_staff_contacts]
      exact set_contacts_same _ _ _ _)
    st _ v hv

theorem add_facility_W_not_staff (pd : Nat → Person) (f st : List Nat) (v : Nat)
    (hv : v ∉ st) :
    ((add_facility pd f st) v).contacts Layer.W = (pd v).contacts Layer.W := by
  simp only [add_facility]
  rw [fold_step_not_mem
    (fun pd2 uid => set_snf_staff
      (set_contacts pd2 uid Layer.W ((f.toFinset ∪ st.toFinset).erase uid)) uid)
    (fun pd2 uid v2 hv2 => by
      simp only []
      rw [set_snf_staff_other_uid _ _ _ hv2, set_contacts_other_uid _ _ _ _ _ hv2])
    st _ v hv,
    fold_step_layer Layer.LTCF
    (fun pd2 uid => set_snf_res
      (set_contacts pd2 uid Layer.LTCF ((f.toFinset ∪ st.toFinset).erase uid)) uid)
    (fun pd2 uid v2 l2 hl2 => by
      simp only []
      rw [set_snf_res_contacts, set_contacts_other_layer _ _ _ _ _ _ hl2])
    f pd v Layer.W (by decide)]

theorem add_facility_layer (pd : Nat → Person) (f st : List Nat) (v : Nat) (l2 : Layer)
    (h1 : l2 ≠ Layer.LTCF) (h2 : l2 ≠ Layer.W) :
    ((add_facility pd f st) v).contacts l2 = (pd v).contacts l2 := by
  simp only [add_facility]
  rw [fold_step_layer Layer.W
    (fun pd2 uid => set_snf_staff
      (set_contacts pd2 uid Layer.W ((f.toFinset ∪ st.toFinset).erase uid)) uid)
    (fun pd2 uid v2 l3 hl3 => by
      simp only []
      rw [set_snf_staff_contacts, set_contacts_other_layer _ _ _ _ _ _ hl3])
    st _ v l2 h2,
    fold_step_layer Layer.LTCF
    (fun pd2 uid => set_snf_res
      (set_contacts pd2 uid Layer.LTCF ((f.toFinset ∪ st.toFinset).erase uid)) uid)
    (fun pd2 uid v2 l3 hl3 => by
      simp only []
      rw [set_snf_res_contacts, set_contacts_other_layer _ _ _ _ _ _ hl3])
    f pd v l2 h1]

theorem facilities_fold_LTCF_not_mem :
    ∀ (pairs : List (List Nat × List Nat)) (pd : Nat → Person) (v : Nat),
      (∀ p ∈ pairs, v ∉ p.1) →
      ((pairs.foldl (fun pd2 p => add_facility pd2 p.1 p.2) pd) v).contacts Layer.LTCF =
        (pd v).contacts Layer.LTCF := by
  intro pairs
  induction pairs with
  | nil => intro pd v _; rfl
  | cons q t ih =>
    intro pd v hv
    rw [List.foldl_cons, ih (add_facility pd q.1 q.2) v
        (fun p hp => hv p (List.mem_cons_of_mem q hp)),
      add_facility_LTCF_not_mem pd q.1 q.2 v (hv q (List.mem_cons_self q t))]

theorem facilities_fold_W_not_mem :
    ∀ (pairs : List (List Nat × List Nat)) (pd : Nat → Person) (v : Nat),
      (∀ p ∈ pairs, v ∉ p.2) →
      ((pairs.foldl (fun pd2 p => add_facility pd2 p.1 p.2) pd) v).contacts Layer.W =
        (pd v).contacts Layer.W := by
  intro pairs
  induction pairs with
  | nil => intro pd v _; rfl
  | cons q t ih =>
    intro pd v hv
    rw [List.foldl_cons, ih (add_facility pd q.1 q.2) v
        (fun p hp => hv p (List.mem_cons_of_mem q hp)),
      add_facility_W_not_staff pd q.1 q.2 v (hv q (List.mem_cons_self q t))]

theorem facilities_fold_layer :
    ∀ (pairs : List (List Nat × List Nat)) (pd : Nat → Person) (v : Nat) (l2 : Layer),
      l2 ≠ Layer.LTCF → l2 ≠ Layer.W →
      ((pairs.foldl (fun pd2 p => add_facility pd2 p.1 p.2) pd) v).contacts l2 =
        (pd v).contacts l2 := by
  intro pairs
  induction pairs with
  | nil => intro pd v l2 _ _; rfl
  | cons q t ih =>
    intro pd v l2 h1 h2
    rw [List.foldl_cons, ih (add_facility pd q.1 q.2) v l2 h1 h2,
      add_facility_layer pd q.1 q.2 v l2 h1 h2]

theorem facilities_fold_LTCF_mem :
    ∀ (pairs : List (List Nat × List Nat)),
      pairs.Pairwise (fun p q => ∀ u ∈ p.1, u ∉ q.1) →
      ∀ (pd : Nat → Person) (p : List Nat × List Nat), p ∈ pairs → ∀ v ∈ p.1,
        ((pairs.foldl (fun pd2 p2 => add_facility pd2 p2.1 p2.2) pd) v).contacts Layer.LTCF =
          (p.1.toFinset ∪ p.2.toFinset).erase v := by
  intro pairs
  induction pairs with
  | nil =>
    intro _ pd p hp
    cases hp
  | cons q t ih =>
    intro hdisj pd p hp v hv
    rw [List.foldl_cons]
    rcases List.mem_cons.mp hp with hq | ht
    · subst hq
      have hvnot : ∀ p2 ∈ t, v ∉ p2.1 := fun p2 hp2 =>
        (List.pairwise_cons.mp hdisj).1 p2 hp2 v hv
      rw [facilities_fold_LTCF_not_mem t (add_facility pd p.1 p.2) v hvnot,
        add_facility_LTCF_mem pd p.1 p.2 v hv]
    · exact ih (List.pairwise_cons.mp hdisj).2 (add_facility pd q.1 q.2) p ht v hv

theorem facilities_fold_W_mem :
    ∀ (pairs : List (List Nat × List Nat)),
      pairs.Pairwise (fun p q => ∀ u ∈ p.2, u ∉ q.2) →
      ∀ (pd : Nat → Person) (p : List Nat × List Nat), p ∈ pairs → ∀ v ∈ p.2,
        ((pairs.foldl (fun pd2 p2 => add_facility pd2 p2.1 p2.2) pd) v).contacts Layer.W =
          (p.1.toFinset ∪ p.2.toFinset).erase v := by
  intro pairs
  induction pairs with
  | nil =>
    intro _ pd p hp
    cases hp
  | cons q t ih =>
    intro hdisj pd p hp v hv
    rw [List.foldl_cons]
    rcases List.mem_cons.mp hp with hq | ht
    · subst hq
      have hvnot : ∀ p2 ∈ t, v ∉ p2.2 := fun p2 hp2 =>
        (List.pairwise_cons.mp hdisj).1 p2 hp2 v hv
      rw [facilities_fold_W_not_mem t (add_facility pd p.1 p.2) v hvnot,
        add_facility_W_staff pd p.1 p.2 v hv]
    · exact ih (List.pairwise_cons.mp hdisj).2 (add_facility pd q.1 q.2) p ht v hv

theorem make_contacts_H_not_mem (age_by_uid sex_by_uid : Nat → Nat)
    (homes schools workplaces facilities staffs : List (List Nat)) (v : Nat)
    (hv : ∀ g ∈ homes.drop facilities.length, v ∉ g) :
    ((make_contacts_with_facilities age_by_uid sex_by_uid homes schools workplaces
        facilities staffs) v).contacts Layer.H = ∅ := by
  simp only [make_contacts_with_facilities]
  rw [groups_fold_layer Layer.W workplaces _ v Layer.H (by decide),
    groups_fold_layer Layer.S schools _ v Layer.H (by decide),
    groups_fold_not_mem Layer.H (homes.drop facilities.length) _ v hv,
    facilities_fold_layer (facilities.zip staffs) _ v Layer.H (by decide) (by decide)]

theorem make_contacts_H_mem (age_by_uid sex_by_uid : Nat → Nat)
    (homes schools workplaces facilities staffs : List (List Nat))
    (hdisj : (homes.drop facilities.length).Pairwise (fun g1 g2 => ∀ u ∈ g1, u ∉ g2))
    (g : List Nat) (hg : g ∈ homes.drop facilities.length) (v : Nat) (hv : v ∈ g) :
    ((make_contacts_with_facilities age_by_uid sex_by_uid homes schools workplaces
        facilities staffs) v).contacts Layer.H = g.toFinset.erase v := by
  simp only [make_contacts_with_facilities]
  rw [groups_fold_layer Layer.W workplaces _ v Layer.H (by decide),
    groups_fold_layer Layer.S schools _ v Layer.H (by decide)]
  exact groups_fold_mem Layer.H (homes.drop facilities.length) hdisj _ g hg v hv

theorem make_contacts_S_not_mem (age_by_uid sex_by_uid : Nat → Nat)
    (homes schools workplaces facilities staffs : List (List Nat)) (v : Nat)
    (hv : ∀ g ∈ schools, v ∉ g) :
    ((make_contacts_with_facilities age_by_uid sex_by_uid homes schools workplaces
        facilities staffs) v).contacts Layer.S = ∅ := by
  simp only [make_contacts_with_facilities]
  rw [groups_fold_layer Layer.W workplaces _ v Layer.S (by decide),
    groups_fold_not_mem Layer.S schools _ v hv,
    groups_fold_layer Layer.H (homes.drop facilities.length) _ v Layer.S (by decide),
    facilities_fold_layer (facilities.zip staffs) _ v Layer.S (by decide) (by decide)]

theorem make_contacts_S_mem (age_by_uid sex_by_uid : Nat → Nat)
    (homes schools workplaces facilities staffs : List (List Nat))
    (hdisj : schools.Pairwise (fun g1 g2 => ∀ u ∈ g1, u ∉ g2))
    (g : List Nat) (hg : g ∈ schools) (v : Nat) (hv : v ∈ g) :
    ((make_contacts_with_facilities age_by_uid sex_by_uid homes schools workplaces
        facilities staffs) v).contacts Layer.S = g.toFinset.erase v := by
  simp only [make_contacts_with_facilities]
  rw [groups_fold_layer Layer.W workplaces _ v Layer.S (by decide)]
  exact groups_fold_mem Layer.S schools hdisj _ g hg v hv

theorem make_contacts_LTCF_not_mem (age_by_uid sex_by_uid : Nat → Nat)
    (homes schools workplaces facilities staffs : List (List Nat)) (v : Nat)
    (hv : ∀ p ∈ facilities.zip staffs, v ∉ p.1) :
    ((make_contacts_with_facilities age_by_uid sex_by_uid homes schools workplaces
        facilities staffs) v).contacts Layer.LTCF = ∅ := by
  simp only [make_contacts_with_facilities]
  rw [groups_fold_layer Layer.W workplaces _ v Layer.LTCF (by decide),
    groups_fold_layer Layer.S schools _ v Layer.LTCF (by decide),
    groups_fold_layer Layer.H (homes.drop facilities.length) _ v Layer.LTCF (by decide),
    facilities_fold_LTCF_not_mem (facilities.zip staffs) _ v hv]

theorem make_contacts_LTCF_mem (age_by_uid sex_by_uid : Nat → Nat)
    (homes schools workplaces facilities staffs : List (List Nat))
    (hdisj : (facilities.zip staffs).Pairwise (fun p q => ∀ u ∈ p.1, u ∉ q.1))
    (p : List Nat × List Nat) (hp : p ∈ facilities.zip staffs) (v : Nat) (hv : v ∈ p.1) :
    ((make_contacts_with_facilities age_by_uid sex_by_uid homes schools workplaces
        facilities staffs) v).contacts Layer.LTCF =
      (p.1.toFinset ∪ p.2.toFinset).erase v := by
  simp only [make_contacts_with_facilities]
  rw [groups_fold_layer Layer.W workplaces _ v Layer.LTCF (by decide),
    groups_fold_layer Layer.S schools _ v Layer.LTCF (by decide),
    groups_fold_layer Layer.H (homes.drop facilities.length) _ v Layer.LTCF (by decide)]
  exact facilities_fold_LTCF_mem (facilities.zip staffs) hdisj _ p hp v hv

theorem make_contacts_W_staff (age_by_uid sex_by_uid : Nat → Nat)
    (homes schools workplaces facilities staffs : List (List Nat))
    (hdisj : (facilities.zip staffs).Pairwise (fun p q => ∀ u ∈ p.2, u ∉ q.2))
    (p : List Nat × List Nat) (hp : p ∈ facilities.zip staffs) (s : Nat) (hs : s ∈ p.2)
    (hw : ∀ w ∈ workplaces, s ∉ w) :
    ((make_contacts_with_facilities age_by_uid sex_by_uid homes schools workplaces
        facilities staffs) s).contacts Layer.W =
      (p.1.toFinset ∪ p.2.toFinset).erase s := by
  simp only [make_contacts_with_facilities]
  rw [groups_fold_not_mem Layer.W workplaces _ s hw,
    groups_fold_layer Layer.S schools _ s Layer.W (by decide),
    groups_fold_layer Layer.H (homes.drop facilities.length) _ s Layer.W (by decide)]
  exact facilities_fold_W_mem (facilities.zip staffs) hdisj _ p hp s hs

theorem make_contacts_W_work_mem (age_by_uid sex_by_uid : Nat → Nat)
    (homes schools workplaces facilities staffs : List (List Nat))
    (hwdisj : workplaces.Pairwise (fun g1 g2 => ∀ u ∈ g1, u ∉ g2))
    (g : List Nat) (hg : g ∈ workplaces) (v : Nat) (hv : v ∈ g) :
    ((make_contacts_with_facilities age_by_uid sex_by_uid homes schools workplaces
        facilities staffs) v).contacts Layer.W = g.toFinset.erase v := by
  simp only [make_contacts_with_facilities]
  exact groups_fold_mem Layer.W workplaces hwdisj _ g hg v hv

theorem make_contacts_W_none (age_by_uid sex_by_uid : Nat → Nat)
    (homes schools workplaces facilities staffs : List (List Nat)) (v : Nat)
    (hw : ∀ w ∈ workplaces, v ∉ w)
    (hst : ∀ p ∈ facilities.zip staffs, v ∉ p.2) :
    ((make_contacts_with_facilities age_by_uid sex_by_uid homes schools workplaces
        facilities staffs) v).contacts Layer.W = ∅ := by
  simp only [make_contacts_with_facilities]
  rw [groups_fold_not_mem Layer.W workplaces _ v hw,
    groups_fold_layer Layer.S schools _ v Layer.W (by decide),
    groups_fold_layer Layer.H (homes.drop facilities.length) _ v Layer.W (by decide),
    facilities_fold_W_not_mem (facilities.zip staffs) _ v hst]

theorem make_contacts_C_empty (age_by_uid sex_by_uid : Nat → Nat)
    (homes schools workplaces facilities staffs : List (List Nat)) (v : Nat) :
    ((make_contacts_with_facilities age_by_uid sex_by_uid homes schools workplaces
        facilities staffs) v).contacts Layer.C = ∅ := by
  simp only [make_contacts_with_facilities]
  rw [groups_fold_layer Layer.W workplaces _ v Layer.C (by decide),
    groups_fold_layer Layer.S schools _ v Layer.C (by decide),
    groups_fold_layer Layer.H (homes.drop facilities.length) _ v Layer.C (by decide),
    facilities_fold_layer (facilities.zip staffs) _ v Layer.C (by decide) (by decide)]

theorem add_group_irrefl (l : Layer) (g : List Nat) (pd : Nat → Person)
    (h : ∀ v l2, v ∉ (pd v).contacts l2) :
    ∀ v l2, v ∉ ((add_group l pd g) v).contacts l2 := by
  intro v l2
  by_cases hl : l2 = l
  · rw [hl]
    by_cases hv : v ∈ g
    · rw [add_group_mem l g pd v hv]
      exact Finset.not_mem_erase v _
    · rw [add_group_not_mem l g pd v hv]
      exact h v _
  · rw [add_group_layer l g pd v l2 hl]
    exact h v _

theorem groups_fold_irrefl (l : Layer) :
    ∀ (gs : List (List Nat)) (pd : Nat → Person), (∀ v l2, v ∉ (pd v).contacts l2) →
      ∀ v l2, v ∉ ((gs.foldl (add_group l) pd) v).contacts l2 := by
  intro gs
  induction gs with
  | nil => intro pd h v l2; exact h v l2
  | cons g t ih =>
    intro pd h v l2
    rw [List.foldl_cons]
    exact ih (add_group l pd g) (add_group_irrefl l g pd h) v l2

theorem add_facility_irrefl (pd : Nat → Person) (f st : List Nat)
    (h : ∀ v l2, v ∉ (pd v).contacts l2) :
    ∀ v l2, v ∉ ((add_facility pd f st) v).contacts l2 := by
  intro v l2
  by_cases hW : l2 = Layer.W
  · subst hW
    by_cases hv : v ∈ st
    · rw [add_facility_W_staff pd f st v hv]
      exact Finset.not_mem_erase v _
    · rw [add_facility_W_not_staff pd f st v hv]
      exact h v _
  · by_cases hL : l2 = Layer.LTCF
    · subst hL
      by_cases hv : v ∈ f
      · rw [add_facility_LTCF_mem pd f st v hv]
        exact Finset.not_mem_erase v _
      · rw [add_facility_LTCF_not_mem pd f st v hv]
        exact h v _
    · rw [add_facility_layer pd f st v l2 hL hW]
      exact h v _

theorem facilities_fold_irrefl :
    ∀ (pairs : List (List Nat × List Nat)) (pd : Nat → Person),
      (∀ v l2, v ∉ (pd v).contacts l2) →
      ∀ v l2, v ∉ ((pairs.foldl (fun pd2 p => add_facility pd2 p.1 p.2) pd) v).contacts l2 := by
  intro pairs
  induction pairs with
  | nil => intro pd h v l2; exact h v l2
  | cons q t ih =>
    intro pd h v l2
    rw [List.foldl_cons]
    exact ih (add_facility pd q.1 q.2) (add_facility_irrefl pd q.1 q.2 h) v l2

theorem make_contacts_irrefl (age_by_uid sex_by_uid : Nat → Nat)
    (homes schools workplaces facilities staffs : List (List Nat)) :
    ∀ v l2, v ∉ ((make_contacts_with_facilities age_by_uid sex_by_uid homes schools
        workplaces facilities staffs) v).contacts l2 := by
  intro v l2
  simp only [make_contacts_with_facilities]
  apply groups_fold_irrefl Layer.W workplaces
  apply groups_fold_irrefl Layer.S schools
  apply groups_fold_irrefl Layer.H (homes.drop facilities.length)
  apply facilities_fold_irrefl (facilities.zip staffs)
  intro v2 l3
  exact Finset.not_mem_empty v2

/-- C2 (counterexample): in the popdict assembled for one facility with
resident 0 and staff member 1 (uid 1 living in the ordinary home [1]),
staff uid 1 is in resident 0's LTCF contact set but 0 is not in 1's LTCF
contact set, so per-layer contact symmetry fails as stated. -/
theorem contact_symmetry_counterexample :
    1 ∈ ((make_contacts_with_facilities (fun _ => 70) (fun _ => 0) [[0], [1]] [] []
        [[0]] [[1]]) 0).contacts Layer.LTCF ∧
    0 ∉ ((make_contacts_with_facilities (fun _ => 70) (fun _ => 0) [[0], [1]] [] []
        [[0]] [[1]]) 1).contacts Layer.LTCF := by
  decide

/-- C2 (amended): in the assembled popdict no uid is ever in its own
contact set in any layer; symmetry holds within the household and school
layers, within the workplace layer for every pair of non-staff uids, in
the community layer (which is never populated, so every C set is empty),
and among co-residents of one facility; but a facility's resident-staff
pairs are linked asymmetrically by construction: the staff member enters
the resident's LTCF set while the resident enters the staff member's W
set, and the staff member's LTCF set stays empty.  The group lists are
assumed pairwise disjoint and staff distinct from residents and from
ordinary workplaces, as the upstream pipeline guarantees. -/
theorem contact_layers_amended (age_by_uid sex_by_uid : Nat → Nat)
    (homes schools workplaces facilities staffs : List (List Nat))
    (hfac : (facilities.zip staffs).Pairwise (fun p q => ∀ u ∈ p.1, u ∉ q.1))
    (hstaffpair : (facilities.zip staffs).Pairwise (fun p q => ∀ u ∈ p.2, u ∉ q.2))
    (hstafffac : ∀ p ∈ facilities.zip staffs, ∀ s ∈ p.2,
      ∀ q ∈ facilities.zip staffs, s ∉ q.1)
    (hstaffwork : ∀ p ∈ facilities.zip staffs, ∀ s ∈ p.2, ∀ w ∈ workplaces, s ∉ w)
    (hhomes : (homes.drop facilities.length).Pairwise (fun g1 g2 => ∀ u ∈ g1, u ∉ g2))
    (hschools : schools.Pairwise (fun g1 g2 => ∀ u ∈ g1, u ∉ g2))
    (hworkplaces : workplaces.Pairwise (fun g1 g2 => ∀ u ∈ g1, u ∉ g2)) :
    (∀ v l2, v ∉ ((make_contacts_with_facilities age_by_uid sex_by_uid homes schools
        workplaces facilities staffs) v).contacts l2) ∧
    (∀ u v, u ∈ ((make_contacts_with_facilities age_by_uid sex_by_uid homes schools
          workplaces facilities staffs) v).contacts Layer.H ↔
        v ∈ ((make_contacts_with_facilities age_by_uid sex_by_uid homes schools
          workplaces facilities staffs) u).contacts Layer.H) ∧
    (∀ u v, u ∈ ((make_contacts_with_facilities age_by_uid sex_by_uid homes schools
          workplaces facilities staffs) v).contacts Layer.S ↔
        v ∈ ((make_contacts_with_facilities age_by_uid sex_by_uid homes schools
          workplaces facilities staffs) u).contacts Layer.S) ∧
    (∀ u v, (∀ p ∈ facilities.zip staffs, u ∉ p.2) →
      (∀ p ∈ facilities.zip staffs, v ∉ p.2) →
      (u ∈ ((make_contacts_with_facilities age_by_uid sex_by_uid homes schools
          workplaces facilities staffs) v).contacts Layer.W ↔
        v ∈ ((make_contacts_with_facilities age_by_uid sex_by_uid homes schools
          workplaces facilities staffs) u).contacts Layer.W)) ∧
    (∀ v, ((make_contacts_with_facilities age_by_uid sex_by_uid homes schools
        workplaces facilities staffs) v).contacts Layer.C = ∅) ∧
    (∀ u v, u ∈ ((make_contacts_with_facilities age_by_uid sex_by_uid homes schools
          workplaces facilities staffs) v).contacts Layer.C ↔
        v ∈ ((make_contacts_with_facilities age_by_uid sex_by_uid homes schools
          workplaces facilities staffs) u).contacts Layer.C) ∧
    (∀ p ∈ facilities.zip staffs, ∀ u ∈ p.1, ∀ v ∈ p.1, u ≠ v →
      u ∈ ((make_contacts_with_facilities age_by_uid sex_by_uid homes schools
        workplaces facilities staffs) v).contacts Layer.LTCF ∧
      v ∈ ((make_contacts_with_facilities age_by_uid sex_by_uid homes schools
        workplaces facilities staffs) u).contacts Layer.LTCF) ∧
    (∀ p ∈ facilities.zip staffs, ∀ u ∈ p.1, ∀ s ∈ p.2,
      s ∈ ((make_contacts_with_facilities age_by_uid sex_by_uid homes schools
        workplaces facilities staffs) u).contacts Layer.LTCF ∧
      u ∉ ((make_contacts_with_facilities age_by_uid sex_by_uid homes schools
        workplaces facilities staffs) s).contacts Layer.LTCF ∧
      u ∈ ((make_contacts_with_facilities age_by_uid sex_by_uid homes schools
        workplaces facilities staffs) s).contacts Layer.W) := by
  have hH : ∀ u v,
      u ∈ ((make_contacts_with_facilities age_by_uid sex_by_uid homes schools
        workplaces facilities staffs) v).contacts Layer.H →
      v ∈ ((make_contacts_with_facilities age_by_uid sex_by_uid homes schools
        workplaces facilities staffs) u).contacts Layer.H := by
    intro u v hu
    by_cases hex : ∃ g ∈ homes.drop facilities.length, v ∈ g
    · obtain ⟨g, hg, hvg⟩ := hex
      rw [make_contacts_H_mem age_by_uid sex_by_uid homes schools workplaces facilities
          staffs hhomes g hg v hvg] at hu
      have hune : u ≠ v := (Finset.mem_erase.mp hu).1
      have hug : u ∈ g := List.mem_toFinset.mp (Finset.mem_erase.mp hu).2
      rw [make_contacts_H_mem age_by_uid sex_by_uid homes schools workplaces facilities
          staffs hhomes g hg u hug]
      exact Finset.mem_erase.mpr ⟨fun h => hune h.symm, List.mem_toFinset.mpr hvg⟩
    · push_neg at hex
      rw [make_contacts_H_not_mem age_by_uid sex_by_uid homes schools workplaces facilities
          staffs v hex] at hu
      exact absurd hu (Finset.not_mem_empty u)
  have hS : ∀ u v,
      u ∈ ((make_contacts_with_facilities age_by_uid sex_by_uid homes schools
        workplaces facilities staffs) v).contacts Layer.S →
      v ∈ ((make_contacts_with_facilities age_by_uid sex_by_uid homes schools
        workplaces facilities staffs) u).contacts Layer.S := by
    intro u v hu
    by_cases hex : ∃ g ∈ schools, v ∈ g
    · obtain ⟨g, hg, hvg⟩ := hex
      rw [make_contacts_S_mem age_by_uid sex_by_uid homes schools workplaces facilities
          staffs hschools g hg v hvg] at hu
      have hune : u ≠ v := (Finset.mem_erase.mp hu).1
      have hug : u ∈ g := List.mem_toFinset.mp (Finset.mem_erase.mp hu).2
      rw [make_contacts_S_mem age_by_uid sex_by_uid homes schools workplaces facilities
          staffs hschools g hg u hug]
      exact Finset.mem_erase.mpr ⟨fun h => hune h.symm, List.mem_toFinset.mpr hvg⟩
    · push_neg at hex
      rw [make_contacts_S_not_mem age_by_uid sex_by_uid homes schools workplaces facilities
          staffs v hex] at hu
      exact absurd hu (Finset.not_mem_empty u)
  have hW : ∀ u v, (∀ p ∈ facilities.zip staffs, u ∉ p.2) →
      (∀ p ∈ facilities.zip staffs, v ∉ p.2) →
      u ∈ ((make_contacts_with_facilities age_by_uid sex_by_uid homes schools
        workplaces facilities staffs) v).contacts Layer.W →
      v ∈ ((make_contacts_with_facilities age_by_uid sex_by_uid homes schools
        workplaces facilities staffs) u).contacts Layer.W := by
    intro u v _hu_nst hv_nst hu
    by_cases hex : ∃ g ∈ workplaces, v ∈ g
    · obtain ⟨g, hg, hvg⟩ := hex
      rw [make_contacts_W_work_mem age_by_uid sex_by_uid homes schools workplaces facilities
          staffs hworkplaces g hg v hvg] at hu
      have hune : u ≠ v := (Finset.mem_erase.mp hu).1
      have hug : u ∈ g := List.mem_toFinset.mp (Finset.mem_erase.mp hu).2
      rw [make_contacts_W_work_mem age_by_uid sex_by_uid homes schools workplaces facilities
          staffs hworkplaces g hg u hug]
      exact Finset.mem_erase.mpr ⟨fun h => hune h.symm, List.mem_toFinset.mpr hvg⟩
    · push_neg at hex
      rw [make_contacts_W_none age_by_uid sex_by_uid homes schools workplaces facilities
          staffs v hex hv_nst] at hu
      exact absurd hu (Finset.not_mem_empty u)
  refine ⟨make_contacts_irrefl age_by_uid sex_by_uid homes schools workplaces facilities
      staffs, fun u v => ⟨hH u v, hH v u⟩, fun u v => ⟨hS u v, hS v u⟩,
      fun u v hu_nst hv_nst => ⟨hW u v hu_nst hv_nst, hW v u hv_nst hu_nst⟩,
      fun v => make_contacts_C_empty age_by_uid sex_by_uid homes schools workplaces
        facilities staffs v, fun u v => ?_, ?_, ?_⟩
  · rw [make_contacts_C_empty age_by_uid sex_by_uid homes schools workplaces facilities
        staffs v, make_contacts_C_empty age_by_uid sex_by_uid homes schools workplaces
        facilities staffs u]
    simp
  · intro p hp u hu v hv hne
    constructor
    · rw [make_contacts_LTCF_mem age_by_uid sex_by_uid homes schools workplaces facilities
          staffs hfac p hp v hv]
      exact Finset.mem_erase.mpr ⟨hne, Finset.mem_union_left _ (List.mem_toFinset.mpr hu)⟩
    · rw [make_contacts_LTCF_mem age_by_uid sex_by_uid homes schools workplaces facilities
          staffs hfac p hp u hu]
      exact Finset.mem_erase.mpr ⟨fun h => hne h.symm,
        Finset.mem_union_left _ (List.mem_toFinset.mpr hv)⟩
  · intro p hp u hu s hs
    have hsu : s ≠ u := fun h => hstafffac p hp s hs p hp (h ▸ hu)
    refine ⟨?_, ?_, ?_⟩
    · rw [make_contacts_LTCF_mem age_by_uid sex_by_uid homes schools workplaces facilities
          staffs hfac p hp u hu]
      exact Finset.mem_erase.mpr ⟨hsu, Finset.mem_union_right _ (List.mem_toFinset.mpr hs)⟩
    · rw [make_contacts_LTCF_not_mem age_by_uid sex_by_uid homes schools workplaces
          facilities staffs s (fun q hq => hstafffac p hp s hs q hq)]
      exact Finset.not_mem_empty u
    · rw [make_contacts_W_staff age_by_uid sex_by_uid homes schools workplaces facilities
          staffs hstaffpair p hp s hs (hstaffwork p hp s hs)]
      exact Finset.mem_erase.mpr ⟨fun h => hsu h.symm,
        Finset.mem_union_left _ (List.mem_toFinset.mpr hu)⟩

/-- Witness for the amended C2 theorem at a one-facility instance: the staff
uid 1 appears in resident 0's LTCF set, resident 0 appears in staff 1's W set,
and resident 0 is absent from staff 1's LTCF set. -/
theorem contact_layers_amended_witness :
    1 ∈ ((make_contacts_with_facilities (fun _ => 0) (fun _ => 0)
        [[0], [1, 2]] [[1, 2]] [] [[0]] [[1]]) 0).contacts Layer.LTCF ∧
    0 ∈ ((make_contacts_with_facilities (fun _ => 0) (fun _ => 0)
        [[0], [1, 2]] [[1, 2]] [] [[0]] [[1]]) 1).contacts Layer.W ∧
    0 ∉ ((make_contacts_with_facilities (fun _ => 0) (fun _ => 0)
        [[0], [1, 2]] [[1, 2]] [] [[0]] [[1]]) 1).contacts Layer.LTCF := by
  have h := contact_layers_amended (fun _ => 0) (fun _ => 0) [[0], [1, 2]] [[1, 2]] []
    [[0]] [[1]] (by decide) (by decide) (by decide) (by decide) (by decide) (by decide)
    (by decide)
  have h8 := h.2.2.2.2.2.2.2 ([0], [1]) (by decide) 0 (by decide) 1 (by decide)
  exact ⟨h8.1, h8.2.2, h8.2.1⟩

/-- C10: the facility resident groups occupy the first len(facilities) positions
of the combined homes list (homes = facilities + homes, so taking that prefix
returns exactly the facility groups), and the contact assembler, which drops the
first len(facilities_by_uids) groups of homes_by_uids before building the
household layer, leaves every uid of those facility groups with an empty
household (H) contact set. -/
theorem facility_residents_have_no_household_contacts
    (age_by_uid sex_by_uid : Nat → Nat)
    (facilities ordinary_homes homes_by_uids schools workplaces staffs : List (List Nat))
    (hlen : facilities.length ≤ homes_by_uids.length)
    (hdisj : homes_by_uids.Pairwise (fun g1 g2 => ∀ u ∈ g1, u ∉ g2)) :
    ((facilities ++ ordinary_homes).take facilities.length = facilities) ∧
    (∀ g ∈ homes_by_uids.take facilities.length, ∀ uid ∈ g,
      ((make_contacts_with_facilities age_by_uid sex_by_uid homes_by_uids schools
          workplaces (homes_by_uids.take facilities.length) staffs) uid).contacts
        Layer.H = ∅) := by
  constructor
  · exact List.take_left facilities ordinary_homes
  · intro g hg uid huid
    apply make_contacts_H_not_mem
    have hklen : (homes_by_uids.take facilities.length).length = facilities.length := by
      rw [List.length_take]
      exact Nat.min_eq_left hlen
    rw [hklen]
    have hsplit := hdisj
    rw [← List.take_append_drop facilities.length homes_by_uids,
      List.pairwise_append] at hsplit
    intro g2 hg2
    exact hsplit.2.2 g hg g2 hg2 uid huid

/-- Witness for the C10 theorem: two uid-groups, one facility; resident uid 0
ends with empty household contacts. -/
theorem facility_residents_have_no_household_contacts_witness :
    ((([[70]] : List (List Nat)) ++ [[30]]).take ([[70]] : List (List Nat)).length
      = [[70]]) ∧
    (∀ g ∈ ([[0], [1]] : List (List Nat)).take ([[70]] : List (List Nat)).length,
      ∀ uid ∈ g,
      ((make_contacts_with_facilities (fun _ => 0) (fun _ => 0) [[0], [1]] [] []
          (([[0], [1]] : List (List Nat)).take
            ([[70]] : List (List Nat)).length) [[1]]) uid).contacts
        Layer.H = ∅) :=
  facility_residents_have_no_household_contacts (fun _ => 0) (fun _ => 0) [[70]] [[30]]
    [[0], [1]] [] [] [[1]] (by decide) (by decide)

end SynthpopsLTCF
